import Mathlib

/-!
# Clight INTERFACE module: the ScreenSaver lock table

A shallow embedding of the inhibition bookkeeping of `src/modules/interface.c`
(`create_inhibit`, `drop_inhibit`, `on_bus_name_changed`, `method_inhibit`,
`method_uninhibit`, `method_clight_inhibit`), followed by theorems about it.

Conventions of the embedding

* `lock_map` is a libmodule `map_t` (an external library).  It is embedded as an
  association list; `map_put` appends, iteration (`map_itr_new`/`map_itr_next`)
  walks the list front to back.  A `lock_t *` handed out by the map is embedded
  as the position of the entry together with the value it points to, and a write
  through the pointer is `map_store`.
* `int` values are mathematical integers.  The places where the C code
  converts between integer types (`*cookie = random()`, the `"u"` wire type of
  the ScreenSaver methods, and `atoi`, which cuts the `long` of `strtol` to an
  `int`) go through `int_of_long`, `int_of_u32`, `u32_of_int`.
  `refs` is only ever changed by `++`/`--`; signed overflow is undefined in C, and
  the embedding is exact as long as a count stays inside the `int` range.
* `malloc` and `random` are inputs of `create_inhibit`.
* `M_PUB(&inhibit_req)` appends the current value of `inhibit_req` to `published`.
-/

namespace Clight

/-- The C macro `CLIGHT_COOKIE`. -/
def CLIGHT_COOKIE : Int := -1

/-- The C macro `CLIGHT_INH_KEY`. -/
def CLIGHT_INH_KEY : String := "LockClight"

/-- The struct `lock_t`. -/
structure lock_t where
  cookie : Int
  refs : Int
  app : String
  reason : String
deriving DecidableEq, Repr

/-- The payload of an `INHIBIT_REQ` message (`inhibit_req.inhibit`). -/
structure inhibit_upd where
  old : Bool
  new : Bool
  force : Bool
  app_name : String
  reason : String
deriving DecidableEq, Repr

/-- The libmodule map from keys to locks, as the list of its entries in iteration order. -/
abbrev map_t := List (String × lock_t)

/-- First entry stored under `key`: its position and the lock (`map_get`). -/
def map_get : map_t → String → Option (Nat × lock_t)
  | [], _ => none
  | (k, l) :: rest, key =>
      if k = key then some (0, l)
      else (map_get rest key).map (fun r => (r.1 + 1, r.2))

/-- Whether `key` is stored in the map (`map_has_key`). -/
def map_has_key (m : map_t) (key : String) : Bool := (map_get m key).isSome

/-- The linear search of `drop_inhibit`: first lock in iteration order whose cookie is `c`. -/
def map_scan_cookie : map_t → Int → Option (Nat × lock_t)
  | [], _ => none
  | (_, l) :: rest, c =>
      if l.cookie = c then some (0, l)
      else (map_scan_cookie rest c).map (fun r => (r.1 + 1, r.2))

/-- Write `l` through the pointer to the entry at position `i`; the key stays. -/
def map_store : map_t → Nat → lock_t → map_t
  | [], _, _ => []
  | (k, _) :: rest, 0, l => (k, l) :: rest
  | e :: rest, i + 1, l => e :: map_store rest i l

/-- Insert a lock under `key` (`map_put`); an existing value is replaced. -/
def map_put (m : map_t) (key : String) (l : lock_t) : map_t :=
  match map_get m key with
  | some (i, _) => map_store m i l
  | none => m ++ [(key, l)]

/-- Remove the entry stored under `key`, if any (`map_remove`). -/
def map_remove : map_t → String → map_t
  | [], _ => []
  | (k, l) :: rest, key => if k = key then rest else (k, l) :: map_remove rest key

/-- Number of entries (`map_length`). -/
def map_length (m : map_t) : Nat := m.length

/-- Conversion of a `long` to `int` on `*cookie = random()`. -/
def int_of_long (x : Int) : Int := (x + 2147483648) % 4294967296 - 2147483648

/-- A `uint32_t` read from the wire into an `int` variable. -/
def int_of_u32 (u : Nat) : Int := int_of_long (u : Int)

/-- An `int` written to the wire as a `uint32_t`. -/
def u32_of_int (x : Int) : Nat := (x % 4294967296).toNat

/-- The part of the program state the lock manager reads and writes. -/
structure iface_t where
  /-- The static `lock_map`. -/
  lock_map : map_t
  /-- Whether the static `lock_slot` is non-NULL, i.e. NameOwnerChanged is being watched. -/
  lock_slot : Bool
  /-- The static message `inhibit_req`. -/
  inhibit_req : inhibit_upd
  /-- The global `state.inhibited`; only read here, written by another module. -/
  inhibited : Bool
  /-- Every value of `inhibit_req` handed to `M_PUB`, oldest first. -/
  published : List inhibit_upd
deriving DecidableEq, Repr

/-- Modelled from the spec: `add_match` lives in bus.c, which is not among the sources;
per the spec the acquire that creates the first Lock "begins watching for
requester-identity disappearance", so the slot becomes non-NULL. -/
def add_match (_slot : Bool) : Bool := true

/-- The systemd call `sd_bus_slot_unref`, which always returns NULL. -/
def sd_bus_slot_unref (_slot : Bool) : Bool := false

/-- The function `create_inhibit`.  `cookie` is the value of `*cookie` on entry; the result
is the return value, the value of `*cookie` on exit and the new state. -/
def create_inhibit (s : iface_t) (cookie : Int) (key app_name reason : String)
    (malloc_ok : Bool) (rnd : Int) : Int × Int × iface_t :=
  match map_get s.lock_map key with
  | some (i, l) =>
      (0, l.cookie, { s with lock_map := map_store s.lock_map i { l with refs := l.refs + 1 } })
  | none =>
      if malloc_ok then
        let c := if cookie ≠ CLIGHT_COOKIE then int_of_long rnd else cookie
        let m := map_put s.lock_map key { cookie := c, refs := 1, app := app_name, reason := reason }
        let req : inhibit_upd :=
          { old := s.inhibited, new := true, force := false, app_name := app_name, reason := reason }
        (0, c,
          { lock_map := m
            lock_slot := if map_length m = 1 then add_match s.lock_slot else s.lock_slot
            inhibit_req := req
            inhibited := s.inhibited
            published := s.published ++ [req] })
      else (-1, cookie, s)

/-- First part of `drop_inhibit`: the Lock `l` the function works on, looked up by key and,
when the key owns none and a cookie is given, by the linear search over the cookies. -/
def drop_inhibit_lookup (s : iface_t) (cookie : Option Int) (key : String) :
    Option (Nat × lock_t) :=
  match map_get s.lock_map key, cookie with
  | some r, _ => some r
  | none, some c => map_scan_cookie s.lock_map c
  | none, none => none

/-- Second part of `drop_inhibit`: the body of `if (l)`, for the Lock `l` at position `i`. -/
def drop_inhibit_found (s : iface_t) (key : String) (force : Bool) (i : Nat) (l : lock_t) :
    Int × iface_t :=
  let l1 : lock_t := { l with refs := if force then 0 else l.refs - 1 }
  let m1 := map_store s.lock_map i l1
  if l1.refs = 0 then
    let req : inhibit_upd :=
      { old := s.inhibited, new := false, force := decide (key = CLIGHT_INH_KEY),
        app_name := l1.app, reason := l1.reason }
    let m2 := map_remove m1 key
    (0,
      { lock_map := m2
        lock_slot := if map_length m2 = 0 then sd_bus_slot_unref s.lock_slot else s.lock_slot
        inhibit_req := req
        inhibited := s.inhibited
        published := s.published ++ [req] })
  else (0, { s with lock_map := m1 })

/-- The function `drop_inhibit`.  `cookie` is `none` for a NULL pointer. -/
def drop_inhibit (s : iface_t) (cookie : Option Int) (key : String) (force : Bool) :
    Int × iface_t :=
  match drop_inhibit_lookup s cookie key with
  | some (i, l) => drop_inhibit_found s key force i l
  | none => (-1, s)

/-- The test `!new_owner || !strlen(new_owner)` of `on_bus_name_changed`. -/
def owner_gone (new_owner : Option String) : Bool :=
  match new_owner with
  | none => true
  | some n => n.length == 0

/-- The callback `on_bus_name_changed`.  `msg` is the result of reading the three strings
(`none` when the read fails); the new owner may be NULL. -/
def on_bus_name_changed (s : iface_t) (msg : Option (String × String × Option String)) :
    Int × iface_t :=
  match msg with
  | some (_name, old_owner, new_owner) =>
      if map_has_key s.lock_map old_owner && owner_gone new_owner then
        (0, (drop_inhibit s none old_owner true).2)
      else (0, s)
  | none => (0, s)

/-- What a bus method hands back to its caller. -/
inductive reply_t where
  /-- The parameters could not be read; `VALIDATE_PARAMS` returns the error. -/
  | bad_params (r : Int)
  /-- The call to `sd_bus_reply_method_return(m, NULL)`. -/
  | ret_void
  /-- The call to `sd_bus_reply_method_return(m, "u", v)`. -/
  | ret_u (v : Nat)
  /-- An errno set on `ret_error` and returned negated. -/
  | error (errno : Int)
deriving DecidableEq, Repr

/-- The errno `EINVAL`. -/
def EINVAL : Int := 22

/-- The errno `ENOMEM`. -/
def ENOMEM : Int := 12

/-- The method `method_inhibit`; `args` is what `sd_bus_message_read(m, "ss", ..)` yields. -/
def method_inhibit (s : iface_t) (sender : String) (args : Except Int (String × String))
    (malloc_ok : Bool) (rnd : Int) : reply_t × iface_t :=
  match args with
  | .error r => (.bad_params r, s)
  | .ok (app_name, reason) =>
      let r := create_inhibit s 0 sender app_name reason malloc_ok rnd
      if r.1 = 0 then (.ret_u (u32_of_int r.2.1), r.2.2)
      else (.error ENOMEM, r.2.2)

/-- The method `method_uninhibit`; `args` is what `sd_bus_message_read(m, "u", &cookie)` yields. -/
def method_uninhibit (s : iface_t) (sender : String) (args : Except Int Nat) :
    reply_t × iface_t :=
  match args with
  | .error r => (.bad_params r, s)
  | .ok u =>
      let r := drop_inhibit s (some (int_of_u32 u)) sender false
      if r.1 = 0 then (.ret_void, r.2)
      else (.error EINVAL, r.2)

/-- The method `method_clight_inhibit`; `disabled` is `conf.inh_conf.disabled`. -/
def method_clight_inhibit (s : iface_t) (disabled : Bool) (args : Except Int Bool)
    (malloc_ok : Bool) (rnd : Int) : reply_t × iface_t :=
  match args with
  | .error r => (.bad_params r, s)
  | .ok inhibit =>
      if !disabled then
        let r : Int × iface_t :=
          if inhibit then
            let c := create_inhibit s CLIGHT_COOKIE CLIGHT_INH_KEY "Clight" "user requested"
              malloc_ok rnd
            (c.1, c.2.2)
          else drop_inhibit s none CLIGHT_INH_KEY true
        if r.1 = 0 then (.ret_void, r.2) else (.error EINVAL, r.2)
      else (.error EINVAL, s)

/-- The state after `map_new`: no lock, nothing watched, nothing published. -/
def init_state (inhibited : Bool) : iface_t :=
  { lock_map := []
    lock_slot := false
    inhibit_req := { old := false, new := false, force := false, app_name := "", reason := "" }
    inhibited := inhibited
    published := [] }

/-- The lock stored under `key`, without its position. -/
def map_lookup (m : map_t) (key : String) : Option lock_t := (map_get m key).map Prod.snd

/-- The keys of the map, in iteration order. -/
def map_keys (m : map_t) : List String := m.map Prod.fst

/-- A libmodule map stores at most one value per key. -/
def map_wf (m : map_t) : Prop := (map_keys m).Nodup

instance (m : map_t) : Decidable (map_wf m) := by
  unfold map_wf; infer_instance

/-- The lock invariant of the data model: one Lock per key, every refcount at least 1. -/
def lock_inv (m : map_t) : Prop := map_wf m ∧ ∀ e ∈ m, 1 ≤ e.2.refs

/-- Whether some Lock of the map carries cookie `c`. -/
def has_cookie (m : map_t) (c : Int) : Prop := ∃ e ∈ m, e.2.cookie = c

instance (m : map_t) (c : Int) : Decidable (has_cookie m c) := by
  unfold has_cookie; infer_instance

instance (m : map_t) : Decidable (lock_inv m) := by
  unfold lock_inv; infer_instance

/-- The system-wide inhibition state: at least one Lock is outstanding. -/
def outstanding (s : iface_t) : Bool := !s.lock_map.isEmpty

/-- The watch on NameOwnerChanged is active exactly when the table holds a Lock. -/
def watch_ok (s : iface_t) : Prop := s.lock_slot = true ↔ s.lock_map ≠ []

instance (s : iface_t) : Decidable (watch_ok s) := by
  unfold watch_ok; infer_instance

/-- Arguments and environment of one `create_inhibit` call, apart from the key. -/
structure acquire_env where
  cookie : Int
  app_name : String
  reason : String
  malloc_ok : Bool
  rnd : Int

/-- The first `n` calls of a series of `create_inhibit` calls with one key: the return value
and cookie of each call, and the state reached. -/
def acquire_n (s : iface_t) (key : String) (env : Nat → acquire_env) :
    Nat → List (Int × Int) × iface_t
  | 0 => ([], s)
  | n + 1 =>
      let p := acquire_n s key env n
      let r := create_inhibit p.2 (env n).cookie key (env n).app_name (env n).reason
        (env n).malloc_ok (env n).rnd
      (p.1 ++ [(r.1, r.2.1)], r.2.2)

/-- The first `n` calls of a series of non-forced `drop_inhibit` calls with one key: the
return value of each call, and the state reached. -/
def release_n (s : iface_t) (key : String) (ck : Nat → Option Int) : Nat → List Int × iface_t
  | 0 => ([], s)
  | n + 1 =>
      let p := release_n s key ck n
      let r := drop_inhibit p.2 (ck n) key false
      (p.1 ++ [r.1], r.2)

/-- One operation on the lock table. -/
inductive op_t where
  /-- A call of `create_inhibit`. -/
  | acquire (cookie : Int) (key app_name reason : String) (malloc_ok : Bool) (rnd : Int)
  /-- A call of `drop_inhibit`. -/
  | release (cookie : Option Int) (key : String) (force : Bool)
  /-- A NameOwnerChanged signal handed to `on_bus_name_changed`. -/
  | name_changed (msg : Option (String × String × Option String))
deriving DecidableEq, Repr

/-- Whether the operation is a call of `create_inhibit`. -/
def op_t.is_acquire : op_t → Bool
  | .acquire _ _ _ _ _ _ => true
  | _ => false

/-- The state after one operation. -/
def step (s : iface_t) : op_t → iface_t
  | .acquire cookie key app_name reason malloc_ok rnd =>
      (create_inhibit s cookie key app_name reason malloc_ok rnd).2.2
  | .release cookie key force => (drop_inhibit s cookie key force).2
  | .name_changed msg => (on_bus_name_changed s msg).2

/-- The state after a sequence of operations. -/
def run (s : iface_t) (ops : List op_t) : iface_t := ops.foldl step s

/-- Two clients hold one Lock each: `:1.10` with cookie 11 and `:1.11` with cookie 22. -/
def two_clients : iface_t :=
  (method_inhibit (method_inhibit (init_state false) ":1.10" (.ok ("vlc", "video")) true 11).2
    ":1.11" (.ok ("mpv", "film")) true 22).2

/-- One client, `:1.10`, holds a Lock with cookie 11. -/
def one_client : iface_t :=
  (method_inhibit (init_state false) ":1.10" (.ok ("vlc", "video")) true 11).2

/-- An acquire environment that asks for nothing special: hint 0, allocation succeeds. -/
def plain_env (_n : Nat) : acquire_env :=
  { cookie := 0, app_name := "vlc", reason := "video", malloc_ok := true, rnd := 11 }

/-- Client `:1.10` has called Inhibit five times and holds one Lock with refcount 5. -/
def five_refs : iface_t := (acquire_n (init_state false) ":1.10" plain_env 5).2

/-- A second client asks for a Lock while `:1.10` holds one. -/
def second_acquire : op_t := .acquire 0 ":1.11" "mpv" "film" true 22

/-- Client `:1.10` takes a Lock (cookie 11), then client `:1.11`, which owns no Lock,
calls UnInhibit with that cookie. -/
def foreign_release : List op_t :=
  [.acquire 0 ":1.10" "vlc" "video" true 11, .release (some (int_of_u32 11)) ":1.11" false]

/-! ## Topics: `init_topics` of main.c, the vtable and the subscription of interface.c -/

/-- Modelled from the spec: the enumeration of topic identifiers (the index type of `topics`,
below `MSGS_SIZE`) is declared in a header that is not among the sources.  Its members here
are the identifiers the sources use: those `init_topics` assigns a name to and those
interface.c declares a message for with `DECLARE_MSG`; update topics end in `_UPD`, request
topics in `_REQ`. -/
inductive topic_t where
  | AMBIENT_BR_UPD | CURRENT_BL_UPD | CURRENT_KBD_BL_UPD | DISPLAY_UPD | TIME_UPD | EVENT_UPD
  | SUNRISE_UPD | SUNSET_UPD | TEMP_UPD | INHIBIT_UPD | LOCATION_UPD | CURRENT_SCR_BL_UPD
  | UPOWER_UPD
  | DIMMER_TO_REQ | DPMS_TO_REQ | SCR_TO_REQ | BL_TO_REQ | TEMP_REQ | CAPTURE_REQ | CURVE_REQ
  | AUTOCALIB_REQ | CONTRIB_REQ | LOCATION_REQ | UPOWER_REQ | INHIBIT_REQ
  | BL_REQ | NO_AUTOCALIB_REQ | SUNRISE_REQ | SUNSET_REQ | SIMULATE_REQ
deriving DecidableEq, Repr

/-- Every topic identifier of the enumeration. -/
def all_topics : List topic_t :=
  [.AMBIENT_BR_UPD, .CURRENT_BL_UPD, .CURRENT_KBD_BL_UPD, .DISPLAY_UPD, .TIME_UPD, .EVENT_UPD,
   .SUNRISE_UPD, .SUNSET_UPD, .TEMP_UPD, .INHIBIT_UPD, .LOCATION_UPD, .CURRENT_SCR_BL_UPD,
   .UPOWER_UPD,
   .DIMMER_TO_REQ, .DPMS_TO_REQ, .SCR_TO_REQ, .BL_TO_REQ, .TEMP_REQ, .CAPTURE_REQ, .CURVE_REQ,
   .AUTOCALIB_REQ, .CONTRIB_REQ, .LOCATION_REQ, .UPOWER_REQ, .INHIBIT_REQ,
   .BL_REQ, .NO_AUTOCALIB_REQ, .SUNRISE_REQ, .SUNSET_REQ, .SIMULATE_REQ]

/-- Whether the identifier names an update topic (`_UPD`) rather than a request (`_REQ`). -/
def topic_t.is_upd : topic_t → Bool
  | .AMBIENT_BR_UPD | .CURRENT_BL_UPD | .CURRENT_KBD_BL_UPD | .DISPLAY_UPD | .TIME_UPD
  | .EVENT_UPD | .SUNRISE_UPD | .SUNSET_UPD | .TEMP_UPD | .INHIBIT_UPD | .LOCATION_UPD
  | .CURRENT_SCR_BL_UPD | .UPOWER_UPD => true
  | _ => false

/-- The topics INTERFACE declares a message for (`DECLARE_MSG`, interface.c). -/
def interface_msgs : List topic_t :=
  [.BL_TO_REQ, .BL_REQ, .DIMMER_TO_REQ, .DPMS_TO_REQ, .SCR_TO_REQ, .INHIBIT_REQ, .TEMP_REQ,
   .CAPTURE_REQ, .CURVE_REQ, .NO_AUTOCALIB_REQ, .LOCATION_REQ, .CONTRIB_REQ, .SUNRISE_REQ,
   .SUNSET_REQ, .SIMULATE_REQ]

/-- The array `topics` after `init_topics` (main.c): the array starts zeroed, so a topic the
function assigns nothing to is left NULL (`none`). -/
def init_topics : topic_t → Option String
  | .AMBIENT_BR_UPD => some "CurrentAmbientBr"
  | .CURRENT_BL_UPD => some "CurrentBlPct"
  | .CURRENT_KBD_BL_UPD => some "CurrentKbdPct"
  | .DISPLAY_UPD => some "DisplayState"
  | .TIME_UPD => some "Time"
  | .EVENT_UPD => some "InEvent"
  | .SUNRISE_UPD => some "Sunrise"
  | .SUNSET_UPD => some "Sunset"
  | .TEMP_UPD => some "CurrentTemp"
  | .INHIBIT_UPD => some "PmState"
  | .DIMMER_TO_REQ => some "InterfaceDimmerTo"
  | .DPMS_TO_REQ => some "InterfaceDPMSTo"
  | .SCR_TO_REQ => some "InterfaceScreenTO"
  | .BL_TO_REQ => some "InterfaceBLTo"
  | .TEMP_REQ => some "InterfaceTemp"
  | .CAPTURE_REQ => some "InterfaceBLCapture"
  | .CURVE_REQ => some "InterfaceBLCurve"
  | .AUTOCALIB_REQ => some "InterfaceBLAuto"
  | .CONTRIB_REQ => some "InterfaceScrContrib"
  | .LOCATION_REQ => some "InterfaceLocation"
  | .UPOWER_REQ => some "InterfaceUpower"
  | .INHIBIT_REQ => some "InterfaceInhibit"
  | .LOCATION_UPD => some "Location"
  | .CURRENT_SCR_BL_UPD => some "CurrentScreenComp"
  | .UPOWER_UPD => some "AcState"
  | _ => none

/-- The condition of the assert loop of `init_topics`: `strlen(topics[i])` is non-zero; a NULL
entry has no length at all. -/
def topic_inited (t : topic_t) : Bool :=
  match init_topics t with
  | some name => name.length != 0
  | none => false

/-- The names of the properties declared in `clight_vtable` (interface.c), in order. -/
def clight_vtable_properties : List String :=
  ["Version", "ClightdVersion", "Sunrise", "Sunset", "NextEvent", "DayTime", "InEvent",
   "DisplayState", "AcState", "LidState", "Inhibited", "PmInhibited", "SensorAvail", "BlPct",
   "KbdPct", "AmbientBr", "Temp", "Location", "ScreenComp"]

/-- One character position of a POSIX pattern: `.`, a bracket expression `[^...]` or a
literal character. -/
inductive re_atom where
  | any
  | none_of (cs : List Char)
  | lit (c : Char)
deriving DecidableEq, Repr

/-- An atom, possibly followed by `*`. -/
structure re_piece where
  atom : re_atom
  star : Bool
deriving DecidableEq, Repr

/-- Whether a character is matched by an atom. -/
def re_atom.ok : re_atom → Char → Bool
  | .any, _ => true
  | .none_of cs, c => !cs.contains c
  | .lit d, c => c == d

/-- Matching of `atom*` followed by the continuation `k`. -/
def re_star (a : re_atom) (k : List Char → Bool) : List Char → Bool
  | [] => k []
  | c :: t => k (c :: t) || (a.ok c && re_star a k t)

/-- Whether the pieces match at the start of the text (what follows the match is free, as
for `regexec` with a pattern anchored by `^` only). -/
def re_match_here : List re_piece → List Char → Bool
  | [], _ => true
  | p :: rest, s =>
      if p.star then re_star p.atom (re_match_here rest) s
      else
        match s with
        | [] => false
        | c :: t => p.atom.ok c && re_match_here rest t

/-- The pattern `"^[^Req].*"` INTERFACE passes to `m_subscribe`: anchored at the start, one
character that is none of `R`, `e`, `q`, then any characters. -/
def interface_pattern : List re_piece :=
  [{ atom := .none_of ['R', 'e', 'q'], star := false }, { atom := .any, star := true }]

/-- Whether a message published on the topic named `name` is delivered to INTERFACE. -/
def interface_subscribed (name : String) : Bool := re_match_here interface_pattern name.data

/-! ## Bus methods and property setters of interface.c -/

/-- A C `double`, by the value it stands for: a rational number, an infinity or a NaN (both
zeroes are `fin 0`).  Comparisons are exact; rounding of sums is not modelled. -/
inductive dbl where
  | nan
  | neg_inf
  | pos_inf
  | fin (q : Rat)
deriving DecidableEq, Repr

/-- The comparison `a < b` of two doubles; false as soon as one of them is a NaN. -/
def dbl.lt : dbl → dbl → Bool
  | .fin a, .fin b => decide (a < b)
  | .neg_inf, .fin _ => true
  | .neg_inf, .pos_inf => true
  | .fin _, .pos_inf => true
  | _, _ => false

/-- The comparison `a != b` of two doubles; true as soon as one of them is a NaN. -/
def dbl.ne : dbl → dbl → Bool
  | .nan, _ => true
  | _, .nan => true
  | a, b => decide (a ≠ b)

/-- The sum `a + b` of two doubles. -/
def dbl.add : dbl → dbl → dbl
  | .fin a, .fin b => .fin (a + b)
  | .nan, _ => .nan
  | _, .nan => .nan
  | .pos_inf, .neg_inf => .nan
  | .neg_inf, .pos_inf => .nan
  | .pos_inf, _ => .pos_inf
  | _, .pos_inf => .pos_inf
  | .neg_inf, _ => .neg_inf
  | _, .neg_inf => .neg_inf

/-- The opposite `-a` of a double. -/
def dbl.neg : dbl → dbl
  | .fin a => .fin (-a)
  | .nan => .nan
  | .pos_inf => .neg_inf
  | .neg_inf => .pos_inf

/-- The difference `a - b` of two doubles. -/
def dbl.sub (a b : dbl) : dbl := a.add b.neg

/-- The fields of `bl_req.bl` that interface.c writes. -/
structure bl_upd where
  new : dbl
  smooth : Int
deriving DecidableEq, Repr

/-- What `method_clight_changebl` reads and writes. -/
structure bl_state where
  /-- The global `state.current_bl_pct`. -/
  current_bl_pct : dbl
  /-- The static message `bl_req`. -/
  bl_req : bl_upd
  /-- Every value of `bl_req` handed to `M_PUB`, oldest first. -/
  published : List bl_upd
deriving DecidableEq, Repr

/-- The method `method_clight_changebl` (IncBl and DecBl); `member` is the method name of the
call and `args` what `sd_bus_message_read(m, "d", &change_pct)` yields. -/
def method_clight_changebl (s : bl_state) (member : String) (args : Except Int dbl) :
    reply_t × bl_state :=
  match args with
  | .error r => (.bad_params r, s)
  | .ok change_pct =>
      if dbl.lt (.fin 0) change_pct && dbl.lt change_pct (.fin 1) then
        let new : dbl :=
          if member = "IncBl" then
            let n := s.current_bl_pct.add change_pct
            if dbl.lt (.fin 1) n then .fin 1 else n
          else
            let n := s.current_bl_pct.sub change_pct
            if dbl.lt n (.fin 0) then .fin 0 else n
        let req : bl_upd := { s.bl_req with smooth := -1, new := new }
        (.ret_void, { s with bl_req := req, published := s.published ++ [req] })
      else (.error EINVAL, s)

/-- The enumeration `ac_states`, as far as the sources use it. -/
inductive ac_states where
  | ON_AC
  | ON_BATTERY
deriving DecidableEq, Repr

/-- The fields of `curve_req.curve`; `regression_points` is the array it points to. -/
structure curve_upd where
  num_points : Int
  state : ac_states
  regression_points : Option (List dbl)
deriving DecidableEq, Repr

/-- A property-set message carrying an array of doubles: `r` is what
`sd_bus_message_read_array` returns and `data` the array it yields. -/
structure array_msg where
  id : Nat
  r : Int
  data : List dbl
deriving DecidableEq, Repr

/-- What `set_curve` reads and writes. -/
structure curve_state where
  /-- The static `curve_message`: the message kept referenced, if any. -/
  curve_message : Option Nat
  /-- The static message `curve_req`. -/
  curve_req : curve_upd
  /-- Every value of `curve_req` handed to `M_PUB`, oldest first. -/
  published : List curve_upd
deriving DecidableEq, Repr

/-- The size `sizeof(double)`. -/
def sizeof_double : Nat := 8

/-- The setter `set_curve`.  `MAX_SIZE_POINTS` is a macro of a header that is not among the
sources; `userdata` tells which of the two curves the property is. -/
def set_curve (MAX_SIZE_POINTS : Nat) (s : curve_state) (value : array_msg)
    (userdata : ac_states) : Int × curve_state :=
  let s1 : curve_state := { s with curve_message := none }
  if value.r < 0 then (value.r, s1)
  else
    let length : Nat := sizeof_double * value.data.length
    let s2 : curve_state :=
      { s1 with curve_req := { s1.curve_req with num_points := ((length / sizeof_double : Nat) : Int) } }
    if s2.curve_req.num_points > (MAX_SIZE_POINTS : Int) then (-EINVAL, s2)
    else
      let req : curve_upd :=
        { num_points := s2.curve_req.num_points
          state := if userdata = .ON_BATTERY then .ON_BATTERY else .ON_AC
          regression_points := some value.data }
      (value.r,
        { curve_message := some value.id
          curve_req := req
          published := s2.published ++ [req] })

/-- A state in which a curve of two points was set earlier by message 7. -/
def curve_before : curve_state :=
  { curve_message := some 7
    curve_req := { num_points := 2, state := .ON_AC,
                   regression_points := some [.fin 0, .fin 1] }
    published := [] }

/-- A well-formed array message with 51 points. -/
def curve_too_long : array_msg := { id := 8, r := 1, data := List.replicate 51 (.fin 0) }

/-- A state with the backlight at one half and nothing published. -/
def bl_half : bl_state :=
  { current_bl_pct := .fin (1 / 2), bl_req := { new := .fin 0, smooth := 0 }, published := [] }

/-- Flags and results the `init` function of INTERFACE depends on: the `disabled` flags of
the configuration and what each sd-bus call returns. -/
structure init_env where
  bl_disabled : Bool
  kbd_disabled : Bool
  gamma_disabled : Bool
  dim_disabled : Bool
  dpms_disabled : Bool
  screen_disabled : Bool
  inh_disabled : Bool
  r_state : Int
  r_conf : Int
  r_bl : Int
  r_sens : Int
  r_kbd : Int
  r_gamma : Int
  r_daytime : Int
  r_dim : Int
  r_dpms : Int
  r_screen : Int
  r_inh : Int
  /-- Result of `sd_bus_request_name(userbus, bus_interface, 0)`. -/
  r_name : Int
  /-- Result of `sd_bus_request_name(userbus, sc_interface, ..)`. -/
  r_sc_name : Int
  /-- Result of `start_inhibit_monitor()`. -/
  r_monitor : Int
deriving DecidableEq, Repr

/-- What `init` of INTERFACE has done when it returns. -/
structure init_out where
  /-- Final value of the local `r`. -/
  r : Int
  /-- Whether `m_subscribe` was called. -/
  subscribed : Bool
  /-- Whether `start_inhibit_monitor` was called. -/
  monitor_called : Bool
  /-- Whether `lock_map` was created. -/
  lock_map_created : Bool
  /-- Whether `m_poisonpill(self())` was called. -/
  poisoned : Bool
deriving DecidableEq, Repr

/-- The value of `r` after the object registrations of `init`: the results are added up
(as mathematical integers; the C sum is exact unless it overflows).  The two ScreenSaver
registrations are left out: their results are not looked at ("Avoid checking for errors"). -/
def init_register (e : init_env) : Int :=
  let r := e.r_state
  let r := r + e.r_conf
  let r := if !e.bl_disabled then r + e.r_bl + e.r_sens else r
  let r := if !e.kbd_disabled then r + e.r_kbd else r
  let r := if !e.gamma_disabled then r + e.r_gamma else r
  let r := r + e.r_daytime
  let r := if !e.dim_disabled then r + e.r_dim else r
  let r := if !e.dpms_disabled then r + e.r_dpms else r
  let r := if !e.screen_disabled then r + e.r_screen else r
  if !e.inh_disabled then r + e.r_inh else r

/-- The function `init` of INTERFACE, from the registrations on. -/
def interface_init (e : init_env) : init_out :=
  let r := init_register e
  if r < 0 then
    { r := r, subscribed := false, monitor_called := false, lock_map_created := false,
      poisoned := decide (r < 0) }
  else
    let r := e.r_name
    if r < 0 then
      { r := r, subscribed := false, monitor_called := false, lock_map_created := false,
        poisoned := decide (r < 0) }
    else
      { r := r, subscribed := true,
        monitor_called := !e.inh_disabled && decide (e.r_sc_name < 0),
        lock_map_created := !e.inh_disabled,
        poisoned := decide (r < 0) }

/-- The results of the object registrations `init` performs, in order. -/
def init_registrations (e : init_env) : List Int :=
  [e.r_state, e.r_conf]
  ++ (if !e.bl_disabled then [e.r_bl, e.r_sens] else [])
  ++ (if !e.kbd_disabled then [e.r_kbd] else [])
  ++ (if !e.gamma_disabled then [e.r_gamma] else [])
  ++ [e.r_daytime]
  ++ (if !e.dim_disabled then [e.r_dim] else [])
  ++ (if !e.dpms_disabled then [e.r_dpms] else [])
  ++ (if !e.screen_disabled then [e.r_screen] else [])
  ++ (if !e.inh_disabled then [e.r_inh] else [])

/-- Every sd-bus call of `init` succeeds with 0 and every interface is enabled. -/
def init_all_ok : init_env :=
  { bl_disabled := false, kbd_disabled := false, gamma_disabled := false,
    dim_disabled := false, dpms_disabled := false, screen_disabled := false,
    inh_disabled := false, r_state := 0, r_conf := 0, r_bl := 0, r_sens := 0, r_kbd := 0,
    r_gamma := 0, r_daytime := 0, r_dim := 0, r_dpms := 0, r_screen := 0, r_inh := 0,
    r_name := 0, r_sc_name := 0, r_monitor := 0 }


/-- The three steps of `geoclue_init`. -/
inductive geoclue_step where
  | get_client
  | hook_update
  | client_start
deriving DecidableEq, Repr

/-- What each step of `geoclue_init` does to `state.quit`: the steps go through bus helpers
that are not among the sources and that set `state.quit` when they fail, so the value of
`state.quit` after a step, as a function of its value before, is an input. -/
structure geoclue_env where
  get_client : Int → Int
  hook_update : Int → Int
  client_start : Int → Int

/-- The part of `geoclue_init` before the label `end`: the value of `state.quit` on reaching
the label and the steps that were run. -/
def geoclue_steps (env : geoclue_env) (quit : Int) : Int × List geoclue_step :=
  let q1 := env.get_client quit
  if q1 ≠ 0 then (q1, [.get_client])
  else
    let q2 := env.hook_update q1
    if q2 ≠ 0 then (q2, [.get_client, .hook_update])
    else (env.client_start q2, [.get_client, .hook_update, .client_start])

/-- The function `geoclue_init`: the return value, `state.quit` on return and the steps run.
`quit` is `state.quit` on entry. -/
def geoclue_init (env : geoclue_env) (quit : Int) : Int × Int × List geoclue_step :=
  let b := geoclue_steps env quit
  if b.1 ≠ 0 then (-1, 0, b.2) else (0, b.1, b.2)

/-- The clocks a timer can be started on. -/
inductive clockid_t where
  | CLOCK_REALTIME
  | CLOCK_MONOTONIC
deriving DecidableEq, Repr

/-- The arguments of a call of `start_timer`. -/
structure timer_args where
  clock : clockid_t
  sec : Int
  nsec : Int
deriving DecidableEq, Repr

/-- What `init` of LOCATION has done when it returns. -/
structure location_init_out where
  /-- First argument of the call of `init_module`. -/
  fd_arg : Int
  /-- The call of `start_timer`, if one was made. -/
  timer : Option timer_args
  /-- Whether `init_cache_file` was called. -/
  cache_file_inited : Bool
  /-- The global `state.quit` afterwards. -/
  quit : Int
deriving DecidableEq, Repr

/-- The function `init` of location.c.  `DONT_POLL_W_ERR` is a macro of a header that is not
among the sources; `timer_fd` is what `start_timer` returns when it is called. -/
def location_init (DONT_POLL_W_ERR : Int) (env : geoclue_env) (quit : Int) (timer_fd : Int) :
    location_init_out :=
  let g := geoclue_init env quit
  let r := g.1
  if r = 0 then
    { fd_arg := if r = 0 then timer_fd else DONT_POLL_W_ERR
      timer := some { clock := .CLOCK_MONOTONIC, sec := 3, nsec := 0 }
      cache_file_inited := true
      quit := g.2.1 }
  else
    { fd_arg := if r = 0 then timer_fd else DONT_POLL_W_ERR
      timer := none
      cache_file_inited := false
      quit := g.2.1 }

/-- The module identifiers the sources name, and any other module. -/
inductive module_id where
  | BUS
  | LOCATION
  | GAMMA
  | other (n : Nat)
deriving DecidableEq, Repr

/-- The two kinds of dependency. -/
inductive dep_type where
  | HARD
  | SOFT
deriving DecidableEq, Repr

/-- The struct `dependency`: a kind and the module depended on, as in `{HARD, BUS}`. -/
structure dependency where
  type : dep_type
  dep : module_id
deriving DecidableEq, Repr

/-- The dependency lists of all modules (`modules[i].self->deps`). -/
abbrev dep_graph := module_id → List dependency

/-- The static array `dependencies` of location.c. -/
def location_dependencies : List dependency := [{ type := .HARD, dep := .BUS }]

/-- Modelled from the spec: `change_dep_type` lives in a file that is not among the sources;
per the spec (4.1) `reclassify(module, target, kind)` "mutates an existing edge's kind
(fails silently if no such edge)". -/
def change_dep_type (g : dep_graph) (mod dep : module_id) (type : dep_type) : dep_graph :=
  fun m =>
    if m = mod then (g m).map (fun d => if d.dep = dep then { d with type := type } else d)
    else g m

/-- The configuration fields `check` of location.c reads. -/
structure location_conf where
  /-- The string `conf.events[SUNRISE]`. -/
  sunrise : String
  /-- The string `conf.events[SUNSET]`. -/
  sunset : String
  lat : dbl
  lon : dbl
  single_capture_mode : Int
  no_gamma : Int

/-- The condition of the `if` of `check` of location.c. -/
def location_known (c : location_conf) : Bool :=
  (c.sunrise.length != 0 && c.sunset.length != 0)
    || (dbl.ne c.lat (.fin 0) && dbl.ne c.lon (.fin 0))

/-- The function `check` of location.c: the return value and the dependency lists. -/
def location_check (c : location_conf) (g : dep_graph) : Int × dep_graph :=
  if location_known c then (1, change_dep_type g .GAMMA .LOCATION .SOFT)
  else (if c.single_capture_mode ≠ 0 ∨ c.no_gamma ≠ 0 then 1 else 0, g)

/-- GeoClue answers every call: no step touches `state.quit`. -/
def geoclue_up : geoclue_env := { get_client := id, hook_update := id, client_start := id }

/-- GeoClue is absent: the first call sets `state.quit`. -/
def geoclue_down : geoclue_env :=
  { get_client := fun _ => 1, hook_update := id, client_start := id }

/-- A configuration that gives both coordinates. -/
def conf_with_coords : location_conf :=
  { sunrise := "", sunset := "", lat := .fin 45, lon := .fin 9, single_capture_mode := 0,
    no_gamma := 0 }

/-- A configuration that gives neither events nor coordinates, with GAMMA disabled. -/
def conf_no_gamma : location_conf :=
  { sunrise := "", sunset := "", lat := .fin 0, lon := .fin 0, single_capture_mode := 0,
    no_gamma := 1 }

/-- Dependency lists in which GAMMA depends on LOCATION and on BUS, both HARD. -/
def sample_deps : dep_graph
  | .GAMMA => [{ type := .HARD, dep := .LOCATION }, { type := .HARD, dep := .BUS }]
  | .LOCATION => location_dependencies
  | _ => []

/-! ## The module lifecycle, from the spec -/

/-- Modelled from the spec: the lifecycle manager is not among the sources; these are the
states of section 4.2, `UNREGISTERED → REGISTERED → CHECKED → {DISABLED | INITIALIZING →
RUNNING} → DESTROYING → DESTROYED`, plus the terminal `POISONED`. -/
inductive lifecycle where
  | UNREGISTERED
  | REGISTERED
  | CHECKED
  | DISABLED
  | INITIALIZING
  | RUNNING
  | DESTROYING
  | DESTROYED
  | POISONED
deriving DecidableEq, Repr

/-- Modelled from the spec: what the lifecycle manager (not among the sources) keeps: the
lifecycle state of every module and the dependency edges with their mutable kinds. -/
structure mgr_t where
  state : module_id → lifecycle
  deps : dep_graph

/-- Modelled from the spec: "has at least reached the CHECKED state" (4.1); the manager is
not among the sources. -/
def lifecycle.reached_checked : lifecycle → Bool
  | .UNREGISTERED => false
  | .REGISTERED => false
  | _ => true

/-- The states in which the `init` of the module has not been invoked so far, or the module
is out of the lifecycle. -/
def lifecycle.pre_init : lifecycle → Bool
  | .UNREGISTERED => true
  | .REGISTERED => true
  | .CHECKED => true
  | .DISABLED => true
  | .POISONED => true
  | _ => false

/-- Modelled from the spec: `is_satisfied` of the manager (not among the sources) "returns
true iff every HARD-kind outgoing edge points to a target that has reached the RUNNING
state, and every edge's target module has at least reached the CHECKED state" (4.1). -/
def is_satisfied (g : mgr_t) (m : module_id) : Bool :=
  (g.deps m).all (fun d =>
    (d.type != .HARD || g.state d.dep == .RUNNING) && (g.state d.dep).reached_checked)

/-- Modelled from the spec: "a HARD dependency is unsatisfied" (4.2), for the manager that is
not among the sources: some HARD edge points to a target that is not RUNNING. -/
def hard_unsatisfied (g : mgr_t) (m : module_id) : Bool :=
  (g.deps m).any (fun d => d.type == .HARD && g.state d.dep != .RUNNING)

/-- The manager with the state of one module replaced. -/
def set_state (g : mgr_t) (m : module_id) (st : lifecycle) : mgr_t :=
  { g with state := fun x => if x = m then st else g.state x }

/-- A series of reclassifications, as the `check` of a module may perform. -/
def reclassify_all (d : dep_graph) : List (module_id × module_id × dep_type) → dep_graph
  | [] => d
  | (a, b, k) :: rest => reclassify_all (change_dep_type d a b k) rest

/-- Modelled from the spec: the transitions of section 4.2, for the manager that is not among
the sources.  `check` carries the result of the predicate and the reclassifications it
performs; `disable` is the move to `DISABLED` of a module with an unsatisfied HARD
dependency (the spec does not say when the manager looks, so it may happen at any time while
the module is `CHECKED`); `init_begin` is the invocation of `init`, `init_end` its
outcome. -/
inductive mgr_event where
  | check (m : module_id) (ok : Bool) (reclass : List (module_id × module_id × dep_type))
  | disable (m : module_id)
  | init_begin (m : module_id)
  | init_end (m : module_id) (ok : Bool)
  | destroy_begin (m : module_id)
  | destroy_end (m : module_id)
  | poison (m : module_id)
deriving DecidableEq, Repr

/-- Modelled from the spec: one transition of the lifecycle manager (not among the sources);
an event whose source state or guard does not hold changes nothing. -/
def mgr_step (g : mgr_t) : mgr_event → mgr_t
  | .check m ok rc =>
      if g.state m = .REGISTERED then
        set_state { g with deps := reclassify_all g.deps rc } m
          (if ok then .CHECKED else .DISABLED)
      else g
  | .disable m =>
      if g.state m = .CHECKED ∧ hard_unsatisfied g m = true then set_state g m .DISABLED
      else g
  | .init_begin m =>
      if g.state m = .CHECKED ∧ is_satisfied g m = true then set_state g m .INITIALIZING
      else g
  | .init_end m ok =>
      if g.state m = .INITIALIZING then set_state g m (if ok then .RUNNING else .DISABLED)
      else g
  | .destroy_begin m =>
      if g.state m = .RUNNING then set_state g m .DESTROYING else g
  | .destroy_end m =>
      if g.state m = .DESTROYING then set_state g m .DESTROYED else g
  | .poison m =>
      if g.state m = .DISABLED ∨ g.state m = .DESTROYED ∨ g.state m = .POISONED
          ∨ g.state m = .UNREGISTERED then g
      else set_state g m .POISONED

/-- Every state the manager goes through on a sequence of events, the first one included. -/
def mgr_trace (g : mgr_t) : List mgr_event → List mgr_t
  | [] => [g]
  | ev :: rest => g :: mgr_trace (mgr_step g ev) rest

/-- Whether an event is a `check` that reclassifies an edge of module `m`. -/
def mgr_event.reclassifies (m : module_id) : mgr_event → Bool
  | .check _ _ rc => rc.any (fun x => x.1 == m)
  | _ => false

/-- All modules registered, with the dependencies of the sample. -/
def all_registered : mgr_t := { state := fun _ => .REGISTERED, deps := sample_deps }

/-- BUS and LOCATION pass their checks, the `init` of BUS fails, and the manager then tries
to initialise LOCATION. -/
def bus_fails : List mgr_event :=
  [.check .BUS true [], .check .LOCATION true [], .init_begin .BUS, .init_end .BUS false,
   .init_begin .LOCATION, .init_end .LOCATION true]

/-! ## `check_clightd` of main.c -/

/-- The C library test `isspace`, for the C locale. -/
def c_isspace (c : Char) : Bool :=
  c.toNat = 32 || (9 ≤ c.toNat && c.toNat ≤ 13)

/-- The value of the leading decimal digits of a text, continuing from `acc`. -/
def digits_value : List Char → Int → Int
  | [], acc => acc
  | c :: t, acc =>
      if 48 ≤ c.toNat ∧ c.toNat ≤ 57 then digits_value t (acc * 10 + ((c.toNat : Int) - 48))
      else acc

/-- The largest value of a `long` (64 bits on the platforms of sd-bus). -/
def LONG_MAX : Int := 9223372036854775807

/-- The smallest value of a `long`. -/
def LONG_MIN : Int := -9223372036854775808

/-- The C library function `strtol(s, NULL, 10)`: white space, an optional sign, then
digits; what cannot be read counts as 0, and a value outside `long` is replaced by
`LONG_MAX` or `LONG_MIN`. -/
def strtol (s : List Char) : Int :=
  let v : Int :=
    match s.dropWhile c_isspace with
    | [] => 0
    | c :: t =>
        if c = '-' then - digits_value t 0
        else if c = '+' then digits_value t 0
        else digits_value (c :: t) 0
  if LONG_MAX < v then LONG_MAX else if v < LONG_MIN then LONG_MIN else v

/-- The C library function `atoi`, which the GNU C library defines as
`(int) strtol(s, NULL, 10)`: the value `check_clightd` stores in its `int` variables is
the `long` that `strtol` reads, cut to 32 bits. -/
def atoi (s : List Char) : Int := int_of_long (strtol s)

/-- The expression `strchr(s, '.') + 1`: the text after the first dot, `none` when there is
no dot and `strchr` returns NULL. -/
def after_dot : List Char → Option (List Char)
  | [] => none
  | c :: t => if c = '.' then some t else after_dot t

/-- The C library test `strstr(hay, needle) != NULL`. -/
def strstr (hay needle : String) : Bool := decide (needle.data <:+: hay.data)

/-- The configuration flags `check_clightd` reads and writes. -/
structure clightd_conf where
  no_gamma : Bool
  no_screen : Bool
  no_dpms : Bool
deriving DecidableEq, Repr

/-- What the two bus calls of `check_clightd` yield: the result and text of the
introspection, and the result of reading the version property with the content of
`state.clightd_version` afterwards. -/
structure clightd_env where
  r_introspect : Int
  service_list : String
  r_version : Int
  version : String
deriving DecidableEq, Repr

/-- First part of `check_clightd`: the configuration flags after the introspection; a feature
whose node the service list lacks is disabled, and a failed introspection changes nothing. -/
def clightd_features (conf : clightd_conf) (e : clightd_env) : clightd_conf :=
  if e.r_introspect < 0 then conf
  else
    { no_gamma :=
        if !conf.no_gamma && !strstr e.service_list "<node name=\"Gamma\"/>" then true
        else conf.no_gamma
      no_screen :=
        if !conf.no_screen && !strstr e.service_list "<node name=\"Screen\"/>" then true
        else conf.no_screen
      no_dpms :=
        if !conf.no_dpms && !strstr e.service_list "<node name=\"Dpms\"/>" then true
        else conf.no_dpms }

/-- The function `check_clightd`: the return value and the configuration flags; `none` when
the version holds no dot, where the code hands `NULL + 1` to `atoi`.  The two minimum
version numbers are macros of a header that is not among the sources. -/
def check_clightd (MINIMUM_CLIGHTD_VERSION_MAJ MINIMUM_CLIGHTD_VERSION_MIN : Int)
    (conf : clightd_conf) (e : clightd_env) : Option (Int × clightd_conf) :=
  let conf1 := clightd_features conf e
  if e.r_version < 0 ∨ e.version.length = 0 then some (-1, conf1)
  else
    match after_dot e.version.data with
    | none => none
    | some minor =>
        let maj_val := atoi e.version.data
        let min_val := atoi minor
        if maj_val < MINIMUM_CLIGHTD_VERSION_MAJ
            ∨ (maj_val = MINIMUM_CLIGHTD_VERSION_MAJ ∧ min_val < MINIMUM_CLIGHTD_VERSION_MIN)
        then some (-1, conf1)
        else some (0, conf1)

/-- The lexicographic order on (major, minor) pairs: `a.b` is at least `c.d`. -/
def version_ge (a b c d : Int) : Prop := c < a ∨ (a = c ∧ d ≤ b)

/-- A daemon with every feature enabled. -/
def conf_all_on : clightd_conf := { no_gamma := false, no_screen := false, no_dpms := false }

/-- Clightd answers the introspection without a Dpms node and reports version 4.1. -/
def clightd_4_1 : clightd_env :=
  { r_introspect := 0
    service_list := "<node name=\"Gamma\"/><node name=\"Screen\"/>"
    r_version := 0
    version := "4.1" }

/-! ## Monitored ScreenSaver traffic and the timeout setter of interface.c -/

/-- The constant `sc_interface`. -/
def sc_interface : String := "org.freedesktop.ScreenSaver"

/-- Member and signature of the entries 1 and 2 of `sc_vtable`, the only ones
`inhibit_parse_msg` looks at. -/
def sc_vtable_method : Nat → String × String
  | 1 => ("Inhibit", "ss")
  | 2 => ("UnInhibit", "u")
  | _ => ("", "")

/-- What `inhibit_parse_msg` reads of a bus message: member and interface may be missing
(NULL); `args_ss` is what `sd_bus_message_read(m, "ss", ..)` yields. -/
structure bus_msg where
  member : Option String
  signature : String
  interface : Option String
  sender : String
  args_ss : Except Int (String × String)

/-- The body of the `for` loop of `inhibit_parse_msg` for one value of `i`. -/
def inhibit_parse_entry (s : iface_t) (m : bus_msg) (member interface : String) (i : Nat)
    (malloc_ok : Bool) (rnd : Int) : iface_t :=
  if interface = sc_interface ∧ member = (sc_vtable_method i).1
      ∧ m.signature = (sc_vtable_method i).2 then
    match i with
    | 1 =>
        match m.args_ss with
        | .error _ => s
        | .ok (app_name, reason) =>
            (create_inhibit s 0 m.sender app_name reason malloc_ok rnd).2.2
    | 2 => (drop_inhibit s none m.sender false).2
    | _ => s
  else s

/-- The function `inhibit_parse_msg`; `none` when the message has a member but no interface,
where the code hands NULL to `strcmp`. -/
def inhibit_parse_msg (s : iface_t) (m : bus_msg) (malloc_ok : Bool) (rnd : Int) :
    Option iface_t :=
  match m.member with
  | none => some s
  | some member =>
      match m.interface with
      | none => none
      | some interface =>
          let s1 := inhibit_parse_entry s m member interface 1 malloc_ok rnd
          some (inhibit_parse_entry s1 m member interface 2 malloc_ok rnd)

/-- The times of day a backlight timeout is kept for. -/
inductive day_states where
  | DAY
  | NIGHT
  | IN_EVENT
deriving DecidableEq, Repr

/-- The fields of a timeout request (`msg->to`). -/
structure timeout_upd where
  new : Int
  state : ac_states
  daytime : day_states
deriving DecidableEq, Repr

/-- The four static timeout requests of interface.c. -/
inductive to_msg where
  | bl_to_req
  | dimmer_to_req
  | dpms_to_req
  | scr_to_req
deriving DecidableEq, Repr

/-- The `userdata` pointer handed to `set_timeouts`: the timeout field of the configuration
the written property stands for, or something else. -/
inductive timeout_prop where
  /-- The field `conf.bl_conf.timeout[st][d]`. -/
  | bl (st : ac_states) (d : day_states)
  /-- The field `conf.dim_conf.timeout[st]`. -/
  | dim (st : ac_states)
  /-- The field `conf.dpms_conf.timeout[st]`. -/
  | dpms (st : ac_states)
  /-- The field `conf.screen_conf.timeout[st]`. -/
  | screen (st : ac_states)
  /-- Any other pointer. -/
  | other
deriving DecidableEq, Repr

/-- What `set_timeouts` reads and writes. -/
structure to_state where
  bl_to_req : timeout_upd
  dimmer_to_req : timeout_upd
  dpms_to_req : timeout_upd
  scr_to_req : timeout_upd
  /-- Every message handed to `M_PUB`, with its value at that moment, oldest first. -/
  published : List (to_msg × timeout_upd)
deriving DecidableEq, Repr

/-- A property-set message carrying an `int`: `r` is what `sd_bus_message_read` returns and
`v` the value it yields. -/
structure int_msg where
  r : Int
  v : Int
deriving DecidableEq, Repr

/-- The `if` chain of `set_timeouts`: the message chosen (`none` for NULL) and the requests
after the assignments of the branch taken. -/
def set_timeouts_select (s : to_state) (userdata : timeout_prop) : Option to_msg × to_state :=
  match userdata with
  | .bl .ON_AC .DAY =>
      (some .bl_to_req, { s with bl_to_req := { s.bl_to_req with daytime := .DAY, state := .ON_AC } })
  | .bl .ON_AC .NIGHT =>
      (some .bl_to_req, { s with bl_to_req := { s.bl_to_req with daytime := .NIGHT, state := .ON_AC } })
  | .bl .ON_AC .IN_EVENT =>
      (some .bl_to_req, { s with bl_to_req := { s.bl_to_req with daytime := .IN_EVENT, state := .ON_AC } })
  | .bl .ON_BATTERY .DAY =>
      (some .bl_to_req, { s with bl_to_req := { s.bl_to_req with daytime := .DAY, state := .ON_BATTERY } })
  | .bl .ON_BATTERY .NIGHT =>
      (some .bl_to_req, { s with bl_to_req := { s.bl_to_req with daytime := .NIGHT, state := .ON_BATTERY } })
  | .bl .ON_BATTERY .IN_EVENT =>
      (some .bl_to_req, { s with bl_to_req := { s.bl_to_req with daytime := .IN_EVENT, state := .ON_BATTERY } })
  | .dim .ON_AC =>
      (some .dimmer_to_req, { s with dimmer_to_req := { s.dimmer_to_req with state := .ON_AC } })
  | .dim .ON_BATTERY =>
      (some .dimmer_to_req, { s with dimmer_to_req := { s.dimmer_to_req with state := .ON_BATTERY } })
  | .dpms .ON_AC =>
      (some .dpms_to_req, { s with dpms_to_req := { s.dpms_to_req with state := .ON_AC } })
  | .dpms .ON_BATTERY =>
      (some .dpms_to_req, { s with dimmer_to_req := { s.dimmer_to_req with state := .ON_BATTERY } })
  | .screen .ON_AC =>
      (some .scr_to_req, { s with scr_to_req := { s.scr_to_req with state := .ON_AC } })
  | .screen .ON_BATTERY =>
      (some .scr_to_req, { s with scr_to_req := { s.scr_to_req with state := .ON_BATTERY } })
  | .other => (none, s)

/-- The request a message name stands for. -/
def to_state.get (s : to_state) : to_msg → timeout_upd
  | .bl_to_req => s.bl_to_req
  | .dimmer_to_req => s.dimmer_to_req
  | .dpms_to_req => s.dpms_to_req
  | .scr_to_req => s.scr_to_req

/-- The assignment `msg->to.new = v`. -/
def to_state.set_new (s : to_state) (msg : to_msg) (v : Int) : to_state :=
  match msg with
  | .bl_to_req => { s with bl_to_req := { s.bl_to_req with new := v } }
  | .dimmer_to_req => { s with dimmer_to_req := { s.dimmer_to_req with new := v } }
  | .dpms_to_req => { s with dpms_to_req := { s.dpms_to_req with new := v } }
  | .scr_to_req => { s with scr_to_req := { s.scr_to_req with new := v } }

/-- The setter `set_timeouts`: the return value and the requests; `none` when `msg` is NULL,
where `VALIDATE_PARAMS` is handed the address of a field of a NULL message. -/
def set_timeouts (s : to_state) (userdata : timeout_prop) (value : int_msg) :
    Option (Int × to_state) :=
  let sel := set_timeouts_select s userdata
  match sel.1 with
  | none => none
  | some msg =>
      if value.r < 0 then some (value.r, sel.2)
      else
        let s1 := sel.2.set_new msg value.v
        some (value.r, { s1 with published := s1.published ++ [(msg, s1.get msg)] })

/-- The twelve timeout properties of the Conf interfaces. -/
def all_timeout_props : List timeout_prop :=
  [.bl .ON_AC .DAY, .bl .ON_AC .NIGHT, .bl .ON_AC .IN_EVENT, .bl .ON_BATTERY .DAY,
   .bl .ON_BATTERY .NIGHT, .bl .ON_BATTERY .IN_EVENT, .dim .ON_AC, .dim .ON_BATTERY,
   .dpms .ON_AC, .dpms .ON_BATTERY, .screen .ON_AC, .screen .ON_BATTERY]

/-- The request of the module a timeout property belongs to. -/
def timeout_prop.msg : timeout_prop → Option to_msg
  | .bl _ _ => some .bl_to_req
  | .dim _ => some .dimmer_to_req
  | .dpms _ => some .dpms_to_req
  | .screen _ => some .scr_to_req
  | .other => none

/-- The AC state a timeout property names. -/
def timeout_prop.ac : timeout_prop → Option ac_states
  | .bl st _ => some st
  | .dim st => some st
  | .dpms st => some st
  | .screen st => some st
  | .other => none

/-- Whether writing `value` to the property publishes exactly one message, the request of
the module of the property, with the AC state (and, for the backlight, the time of day) the
property names. -/
def timeout_published_right (s : to_state) (p : timeout_prop) (value : int_msg) : Bool :=
  match set_timeouts s p value with
  | none => false
  | some (_, s1) =>
      match s1.published.drop s.published.length with
      | [(msg, req)] =>
          decide (s1.published.take s.published.length = s.published)
          && decide (some msg = p.msg) && decide (some req.state = p.ac)
          && (match p with
              | .bl _ d => decide (req.daytime = d)
              | _ => true)
      | _ => false

/-- The requests as `DECLARE_MSG` leaves them: every field zero, nothing published. -/
def to_zero : to_state :=
  { bl_to_req := { new := 0, state := .ON_AC, daytime := .DAY }
    dimmer_to_req := { new := 0, state := .ON_AC, daytime := .DAY }
    dpms_to_req := { new := 0, state := .ON_AC, daytime := .DAY }
    scr_to_req := { new := 0, state := .ON_AC, daytime := .DAY }
    published := [] }

/-- A readable message carrying the value 30. -/
def thirty : int_msg := { r := 1, v := 30 }

/-! ## Cookies -/

/-- No two Locks of the table carry the same cookie. -/
def cookies_distinct (m : map_t) : Prop := (m.map (fun e => e.2.cookie)).Nodup

instance (m : map_t) : Decidable (cookies_distinct m) := by
  unfold cookies_distinct; infer_instance

/-- Along the operations, every `create_inhibit` that makes a new Lock gives it a cookie that
no Lock of the table carries at that moment. -/
def ops_fresh (s : iface_t) : List op_t → Prop
  | [] => True
  | o :: rest =>
      (match o with
        | .acquire cookie key app_name reason malloc_ok rnd =>
            map_lookup s.lock_map key = none → malloc_ok = true →
              ¬ has_cookie s.lock_map
                (create_inhibit s cookie key app_name reason malloc_ok rnd).2.1
        | _ => True)
      ∧ ops_fresh (step s o) rest

/-- The daemon holds its own Lock (key `LockClight`, cookie -1) after Inhibit(true) on the
Clight interface. -/
def daemon_inhibited : iface_t :=
  (method_clight_inhibit (init_state false) false (.ok true) true 0).2

/-- Two clients ask for a Lock and `random()` returns 11 both times. -/
def same_random : List op_t :=
  [.acquire 0 ":1.10" "vlc" "video" true 11, .acquire 0 ":1.11" "mpv" "film" true 11]

/-- Two clients ask for a Lock and `random()` returns 11, then 22. -/
def other_random : List op_t :=
  [.acquire 0 ":1.10" "vlc" "video" true 11, .acquire 0 ":1.11" "mpv" "film" true 22]

/-! ## Facts about the map operations -/

theorem map_get_none_iff (m : map_t) (key : String) :
    map_get m key = none ↔ key ∉ map_keys m := by
  induction m with
  | nil => simp [map_get, map_keys]
  | cons e rest ih =>
      obtain ⟨k, l⟩ := e
      by_cases h : k = key
      · simp [map_get, map_keys, h]
      · have h2 : ¬ key = k := fun e => h e.symm
        simp [map_get, h, h2, map_keys] at ih ⊢
        exact ih

theorem map_keys_store (m : map_t) (i : Nat) (l : lock_t) :
    map_keys (map_store m i l) = map_keys m := by
  induction m generalizing i with
  | nil => simp [map_store]
  | cons e rest ih =>
      obtain ⟨k, l0⟩ := e
      cases i with
      | zero => simp [map_store, map_keys]
      | succ j =>
          have := ih j
          simp only [map_keys] at this
          simp [map_store, map_keys, this]

theorem map_length_store (m : map_t) (i : Nat) (l : lock_t) :
    map_length (map_store m i l) = map_length m := by
  have h := congrArg List.length (map_keys_store m i l)
  simpa [map_keys, map_length] using h

theorem map_get_store (m : map_t) (key : String) (i : Nat) (l l1 : lock_t)
    (h : map_get m key = some (i, l)) (k : String) :
    map_get (map_store m i l1) k = if k = key then some (i, l1) else map_get m k := by
  induction m generalizing i with
  | nil => simp [map_get] at h
  | cons e rest ih =>
      obtain ⟨k0, l0⟩ := e
      by_cases hk : k0 = key
      · subst hk
        simp [map_get] at h
        obtain ⟨hi, _⟩ := h
        subst hi
        by_cases hkk : k = k0
        · subst hkk
          simp [map_store, map_get]
        · have : ¬ k0 = k := fun e => hkk e.symm
          simp [map_store, map_get, hkk, this]
      · simp only [map_get, hk, if_false] at h
        cases hr : map_get rest key with
        | none => simp [hr] at h
        | some r =>
            obtain ⟨j, lj⟩ := r
            simp [hr] at h
            obtain ⟨hi, hl⟩ := h
            subst hi; subst hl
            have ih2 := ih j hr
            by_cases hkk : k = key
            · subst hkk
              simp only [if_true] at ih2
              simp [map_store, map_get, hk, ih2]
            · simp only [hkk, if_false] at ih2
              simp [map_store, map_get, hkk, ih2]

theorem map_store_store (m : map_t) (key : String) (i : Nat) (l l1 : lock_t)
    (h : map_get m key = some (i, l)) :
    map_store (map_store m i l1) i l = m := by
  induction m generalizing i with
  | nil => simp [map_get] at h
  | cons e rest ih =>
      obtain ⟨k0, l0⟩ := e
      by_cases hk : k0 = key
      · simp [map_get, hk] at h
        obtain ⟨hi, hl⟩ := h
        subst hi; subst hl
        simp [map_store]
      · simp only [map_get, hk, if_false] at h
        cases hr : map_get rest key with
        | none => simp [hr] at h
        | some r =>
            obtain ⟨j, lj⟩ := r
            simp [hr] at h
            obtain ⟨hi, hl⟩ := h
            subst hi; subst hl
            simp [map_store, ih j hr]

theorem map_remove_store (m : map_t) (key : String) (i : Nat) (l l1 : lock_t)
    (h : map_get m key = some (i, l)) :
    map_remove (map_store m i l1) key = map_remove m key := by
  induction m generalizing i with
  | nil => simp [map_get] at h
  | cons e rest ih =>
      obtain ⟨k0, l0⟩ := e
      by_cases hk : k0 = key
      · simp [map_get, hk] at h
        obtain ⟨hi, _⟩ := h
        subst hi
        simp [map_store, map_remove, hk]
      · simp only [map_get, hk, if_false] at h
        cases hr : map_get rest key with
        | none => simp [hr] at h
        | some r =>
            obtain ⟨j, lj⟩ := r
            simp [hr] at h
            obtain ⟨hi, hl⟩ := h
            subst hi; subst hl
            simp [map_store, map_remove, hk, ih j hr]

theorem map_remove_absent (m : map_t) (key : String) (h : map_get m key = none) :
    map_remove m key = m := by
  induction m with
  | nil => simp [map_remove]
  | cons e rest ih =>
      obtain ⟨k0, l0⟩ := e
      by_cases hk : k0 = key
      · simp [map_get, hk] at h
      · simp only [map_get, hk, if_false] at h
        cases hr : map_get rest key with
        | none => simp [map_remove, hk, ih hr]
        | some r => simp [hr] at h

theorem map_length_remove (m : map_t) (key : String) (r : Nat × lock_t)
    (h : map_get m key = some r) :
    map_length (map_remove m key) + 1 = map_length m := by
  induction m generalizing r with
  | nil => simp [map_get] at h
  | cons e rest ih =>
      obtain ⟨k0, l0⟩ := e
      by_cases hk : k0 = key
      · simp [map_remove, hk, map_length]
      · simp only [map_get, hk, if_false] at h
        cases hr : map_get rest key with
        | none => simp [hr] at h
        | some r0 =>
            have := ih r0 hr
            simp only [map_length] at this
            simp [map_remove, hk, map_length, this]

theorem map_lookup_cons (k0 : String) (l0 : lock_t) (rest : map_t) (k : String) :
    map_lookup ((k0, l0) :: rest) k = if k0 = k then some l0 else map_lookup rest k := by
  by_cases h : k0 = k
  · simp [map_lookup, map_get, h]
  · simp only [map_lookup, map_get, h, if_false]
    cases map_get rest k <;> rfl

theorem map_lookup_remove_ne (m : map_t) (key k : String) (hne : k ≠ key) :
    map_lookup (map_remove m key) k = map_lookup m k := by
  induction m with
  | nil => simp [map_remove]
  | cons e rest ih =>
      obtain ⟨k0, l0⟩ := e
      by_cases hk : k0 = key
      · have : ¬ k0 = k := fun e => hne (e.symm.trans hk)
        simp only [map_remove, hk, if_true, map_lookup_cons]
        rw [if_neg (by rw [← hk]; exact this)]
      · simp only [map_remove, hk, if_false, map_lookup_cons, ih]

theorem map_keys_remove_sublist (m : map_t) (key : String) :
    (map_keys (map_remove m key)).Sublist (map_keys m) := by
  induction m with
  | nil => simp [map_remove, map_keys]
  | cons e rest ih =>
      obtain ⟨k0, l0⟩ := e
      by_cases hk : k0 = key
      · simp [map_remove, hk, map_keys]
      · simp only [map_keys] at ih
        simp [map_remove, hk, map_keys, ih]

theorem map_wf_remove (m : map_t) (key : String) (h : map_wf m) :
    map_wf (map_remove m key) :=
  List.Nodup.sublist (map_keys_remove_sublist m key) h

theorem map_wf_store (m : map_t) (i : Nat) (l : lock_t) (h : map_wf m) :
    map_wf (map_store m i l) := by
  unfold map_wf
  rw [map_keys_store]
  exact h

theorem map_get_remove_self (m : map_t) (key : String) (h : map_wf m) :
    map_get (map_remove m key) key = none := by
  induction m with
  | nil => simp [map_remove, map_get]
  | cons e rest ih =>
      obtain ⟨k0, l0⟩ := e
      have hw : map_wf rest := by
        unfold map_wf map_keys at h ⊢
        simp at h
        exact h.2
      by_cases hk : k0 = key
      · subst hk
        simp only [map_remove, if_true]
        rw [map_get_none_iff]
        unfold map_wf map_keys at h
        simp at h
        intro hm
        simp [map_keys] at hm
        obtain ⟨x, hx⟩ := hm
        exact h.1 x hx
      · simp [map_remove, hk, map_get, ih hw]

theorem map_get_append_absent (m : map_t) (key : String) (l : lock_t)
    (h : map_get m key = none) :
    map_get (m ++ [(key, l)]) key = some (map_length m, l) := by
  induction m with
  | nil => simp [map_get, map_length]
  | cons e rest ih =>
      obtain ⟨k0, l0⟩ := e
      by_cases hk : k0 = key
      · simp [map_get, hk] at h
      · simp only [map_get, hk, if_false] at h
        cases hr : map_get rest key with
        | none =>
            have := ih hr
            simp only [map_length] at this
            simp [map_get, hk, this, map_length]
        | some r => simp [hr] at h

theorem map_lookup_append_ne (m : map_t) (key k : String) (l : lock_t) (hne : k ≠ key) :
    map_lookup (m ++ [(key, l)]) k = map_lookup m k := by
  induction m with
  | nil =>
      have : ¬ key = k := fun e => hne e.symm
      simp [map_lookup, map_get, this]
  | cons e rest ih =>
      obtain ⟨k0, l0⟩ := e
      simp only [List.cons_append, map_lookup_cons, ih]

theorem map_store_append (m : map_t) (key : String) (l l1 : lock_t) :
    map_store (m ++ [(key, l)]) (map_length m) l1 = m ++ [(key, l1)] := by
  induction m with
  | nil => simp [map_store, map_length]
  | cons e rest ih =>
      simp only [map_length] at ih
      simp [map_store, map_length, ih]

theorem map_remove_append_absent (m : map_t) (key : String) (l : lock_t)
    (h : map_get m key = none) :
    map_remove (m ++ [(key, l)]) key = m := by
  induction m with
  | nil => simp [map_remove]
  | cons e rest ih =>
      obtain ⟨k0, l0⟩ := e
      by_cases hk : k0 = key
      · simp [map_get, hk] at h
      · simp only [map_get, hk, if_false] at h
        cases hr : map_get rest key with
        | none => simp [map_remove, hk, ih hr]
        | some r => simp [hr] at h

theorem map_wf_append (m : map_t) (key : String) (l : lock_t) (h : map_wf m)
    (hk : map_get m key = none) : map_wf (m ++ [(key, l)]) := by
  rw [map_get_none_iff] at hk
  unfold map_wf map_keys at *
  simp only [List.map_append, List.map_cons, List.map_nil]
  rw [List.nodup_append]
  refine ⟨h, by simp, ?_⟩
  intro a ha hb
  simp at hb
  subst hb
  exact hk ha

theorem map_get_mem (m : map_t) (key : String) (i : Nat) (l : lock_t)
    (h : map_get m key = some (i, l)) : (key, l) ∈ m := by
  induction m generalizing i with
  | nil => simp [map_get] at h
  | cons e rest ih =>
      obtain ⟨k0, l0⟩ := e
      by_cases hk : k0 = key
      · simp [map_get, hk] at h
        simp [hk, h.2]
      · simp only [map_get, hk, if_false] at h
        cases hr : map_get rest key with
        | none => simp [hr] at h
        | some r =>
            obtain ⟨j, lj⟩ := r
            simp [hr] at h
            obtain ⟨_, hl⟩ := h
            subst hl
            exact List.mem_cons_of_mem _ (ih j hr)

theorem map_scan_cookie_none_iff (m : map_t) (c : Int) :
    map_scan_cookie m c = none ↔ ¬ has_cookie m c := by
  induction m with
  | nil => simp [map_scan_cookie, has_cookie]
  | cons e rest ih =>
      obtain ⟨k0, l0⟩ := e
      by_cases hc : l0.cookie = c
      · simp [map_scan_cookie, has_cookie, hc]
      · simp only [has_cookie] at ih
        simp [map_scan_cookie, has_cookie, hc, ih]

theorem string_length_zero (n : String) : n.length = 0 ↔ n = "" := by
  constructor
  · intro h
    cases n with
    | mk d =>
        simp [String.length] at h
        subst h
        rfl
  · intro h
    subst h
    rfl

/-! ## What one call does -/

theorem create_inhibit_present (s : iface_t) (cookie : Int) (key app_name reason : String)
    (malloc_ok : Bool) (rnd : Int) (i : Nat) (l : lock_t)
    (h : map_get s.lock_map key = some (i, l)) :
    create_inhibit s cookie key app_name reason malloc_ok rnd =
      (0, l.cookie,
        { s with lock_map := map_store s.lock_map i { l with refs := l.refs + 1 } }) := by
  simp [create_inhibit, h]

theorem create_inhibit_absent (s : iface_t) (cookie : Int) (key app_name reason : String)
    (rnd : Int) (h : map_get s.lock_map key = none) :
    create_inhibit s cookie key app_name reason true rnd =
      (0, (if cookie = CLIGHT_COOKIE then cookie else int_of_long rnd),
        { lock_map := s.lock_map ++ [(key,
            { cookie := (if cookie = CLIGHT_COOKIE then cookie else int_of_long rnd),
              refs := 1, app := app_name, reason := reason })]
          lock_slot := if map_length s.lock_map = 0 then true else s.lock_slot
          inhibit_req := ⟨s.inhibited, true, false, app_name, reason⟩
          inhibited := s.inhibited
          published := s.published ++ [⟨s.inhibited, true, false, app_name, reason⟩] }) := by
  by_cases hc : cookie = CLIGHT_COOKIE <;>
    simp [create_inhibit, h, map_put, hc, map_length, add_match]

theorem create_inhibit_nomem (s : iface_t) (cookie : Int) (key app_name reason : String)
    (rnd : Int) (h : map_get s.lock_map key = none) :
    create_inhibit s cookie key app_name reason false rnd = (-1, cookie, s) := by
  simp [create_inhibit, h]

theorem drop_inhibit_remove (s : iface_t) (cookie : Option Int) (key : String) (force : Bool)
    (i : Nat) (l : lock_t) (h : map_get s.lock_map key = some (i, l))
    (hz : force = true ∨ l.refs = 1) :
    drop_inhibit s cookie key force =
      (0,
        { lock_map := map_remove s.lock_map key
          lock_slot := if map_length (map_remove s.lock_map key) = 0 then false else s.lock_slot
          inhibit_req := ⟨s.inhibited, false, decide (key = CLIGHT_INH_KEY), l.app, l.reason⟩
          inhibited := s.inhibited
          published := s.published ++
            [⟨s.inhibited, false, decide (key = CLIGHT_INH_KEY), l.app, l.reason⟩] }) := by
  have hr : (if force = true then (0 : Int) else l.refs - 1) = 0 := by
    rcases hz with hf | h1
    · simp [hf]
    · simp [h1]
  simp only [drop_inhibit, drop_inhibit_lookup, drop_inhibit_found, h, hr, if_true,
    sd_bus_slot_unref]
  rw [map_remove_store s.lock_map key i l _ h]

theorem drop_inhibit_decrement (s : iface_t) (cookie : Option Int) (key : String)
    (i : Nat) (l : lock_t) (h : map_get s.lock_map key = some (i, l)) (hz : l.refs ≠ 1) :
    drop_inhibit s cookie key false =
      (0, { s with lock_map := map_store s.lock_map i { l with refs := l.refs - 1 } }) := by
  have hr : ¬ (l.refs - 1 = 0) := by omega
  simp [drop_inhibit, drop_inhibit_lookup, drop_inhibit_found, h, hr]

theorem drop_inhibit_found_ret (s : iface_t) (key : String) (force : Bool) (i : Nat)
    (l : lock_t) : (drop_inhibit_found s key force i l).1 = 0 := by
  simp only [drop_inhibit_found]
  split_ifs <;> rfl

theorem drop_inhibit_miss (s : iface_t) (cookie : Option Int) (key : String) (force : Bool)
    (h : map_get s.lock_map key = none)
    (hc : cookie = none ∨ ∃ c, cookie = some c ∧ ¬ has_cookie s.lock_map c) :
    drop_inhibit s cookie key force = (-1, s) := by
  rcases hc with hn | ⟨c, hc, hno⟩
  · simp [drop_inhibit, drop_inhibit_lookup, h, hn]
  · rw [← map_scan_cookie_none_iff] at hno
    simp [drop_inhibit, drop_inhibit_lookup, h, hc, hno]

/-- What a forced release by key does; shared by the claims on forced releases. -/
theorem forced_release_by_key (s : iface_t) (cookie : Option Int) (key : String) (i : Nat)
    (l : lock_t) (hwf : map_wf s.lock_map) (h : map_get s.lock_map key = some (i, l)) :
    (drop_inhibit s cookie key true).1 = 0
    ∧ map_lookup (drop_inhibit s cookie key true).2.lock_map key = none
    ∧ map_length (drop_inhibit s cookie key true).2.lock_map + 1 = map_length s.lock_map
    ∧ (∀ k, k ≠ key →
        map_lookup (drop_inhibit s cookie key true).2.lock_map k = map_lookup s.lock_map k)
    ∧ ∃ msg, (drop_inhibit s cookie key true).2.published = s.published ++ [msg]
        ∧ msg.new = false := by
  rw [drop_inhibit_remove s cookie key true i l h (Or.inl rfl)]
  refine ⟨rfl, ?_, ?_, ?_, ?_⟩
  · simp [map_lookup, map_get_remove_self s.lock_map key hwf]
  · exact map_length_remove s.lock_map key (i, l) h
  · intro k hk
    exact map_lookup_remove_ne s.lock_map key k hk
  · exact ⟨_, rfl, rfl⟩

/-! ## Repeated calls with one key -/

theorem acquire_n_state (s : iface_t) (key : String) (env : Nat → acquire_env) (n : Nat)
    (hkey : map_get s.lock_map key = none) (hmalloc : (env 0).malloc_ok = true) :
    acquire_n s key env (n + 1) =
      (List.replicate (n + 1)
          (0, (if (env 0).cookie = CLIGHT_COOKIE then (env 0).cookie
               else int_of_long (env 0).rnd)),
        { lock_map := s.lock_map ++ [(key,
            { cookie := (if (env 0).cookie = CLIGHT_COOKIE then (env 0).cookie
                         else int_of_long (env 0).rnd),
              refs := ((n + 1 : Nat) : Int), app := (env 0).app_name,
              reason := (env 0).reason })]
          lock_slot := if map_length s.lock_map = 0 then true else s.lock_slot
          inhibit_req := ⟨s.inhibited, true, false, (env 0).app_name, (env 0).reason⟩
          inhibited := s.inhibited
          published := s.published ++
            [⟨s.inhibited, true, false, (env 0).app_name, (env 0).reason⟩] }) := by
  induction n with
  | zero =>
      simp only [acquire_n, hmalloc]
      rw [create_inhibit_absent s _ key _ _ _ hkey]
      simp
  | succ k ih =>
      rw [acquire_n, ih]
      simp only []
      rw [create_inhibit_present _ _ key _ _ _ _ (map_length s.lock_map) _
        (map_get_append_absent s.lock_map key _ hkey)]
      simp only [map_store_append]
      rw [← List.replicate_succ' (k + 1)]
      simp

theorem release_n_before_last (s : iface_t) (m : map_t) (key : String) (l : lock_t)
    (ck : Nat → Option Int) (hs : s.lock_map = m ++ [(key, l)])
    (hk : map_get m key = none) (j : Nat) (hj : (j : Int) < l.refs) :
    release_n s key ck j =
      (List.replicate j 0,
        { s with lock_map := m ++ [(key, { l with refs := l.refs - (j : Int) })] }) := by
  induction j with
  | zero =>
      simp only [release_n, List.replicate_zero]
      congr 1
      cases s
      simp at hs
      simp [hs]
  | succ k ih =>
      have hk2 : (k : Int) < l.refs := by push_cast at hj; omega
      rw [release_n, ih hk2]
      simp only []
      have hne : (l.refs - (k : Int)) ≠ 1 := by push_cast at hj; omega
      rw [drop_inhibit_decrement _ _ key (map_length m) { l with refs := l.refs - (k : Int) }
        (map_get_append_absent m key _ hk) hne]
      simp only [map_store_append]
      rw [← List.replicate_succ' k]
      have : l.refs - (k : Int) - 1 = l.refs - ((k + 1 : Nat) : Int) := by push_cast; omega
      simp [this]

theorem release_n_last (s : iface_t) (m : map_t) (key : String) (l : lock_t)
    (ck : Nat → Option Int) (hs : s.lock_map = m ++ [(key, l)])
    (hk : map_get m key = none) (k : Nat) (hr : l.refs = ((k + 1 : Nat) : Int)) :
    release_n s key ck (k + 1) =
      (List.replicate (k + 1) 0,
        { lock_map := m
          lock_slot := if map_length m = 0 then false else s.lock_slot
          inhibit_req := ⟨s.inhibited, false, decide (key = CLIGHT_INH_KEY), l.app, l.reason⟩
          inhibited := s.inhibited
          published := s.published ++
            [⟨s.inhibited, false, decide (key = CLIGHT_INH_KEY), l.app, l.reason⟩] }) := by
  have hlt : (k : Int) < l.refs := by rw [hr]; push_cast; omega
  rw [release_n, release_n_before_last s m key l ck hs hk k hlt]
  simp only []
  have h1 : l.refs - (k : Int) = 1 := by rw [hr]; push_cast; omega
  rw [drop_inhibit_remove _ _ key false (map_length m) { l with refs := l.refs - (k : Int) }
    (map_get_append_absent m key _ hk) (Or.inr h1)]
  simp only [map_remove_append_absent m key _ hk]
  rw [← List.replicate_succ' k]

/-! ## Sequences of operations -/

theorem map_get_ne_nil (m : map_t) (key : String) (r : Nat × lock_t)
    (h : map_get m key = some r) : m ≠ [] := by
  cases m with
  | nil => simp [map_get] at h
  | cons e rest => simp

theorem map_scan_cookie_ne_nil (m : map_t) (c : Int) (r : Nat × lock_t)
    (h : map_scan_cookie m c = some r) : m ≠ [] := by
  cases m with
  | nil => simp [map_scan_cookie] at h
  | cons e rest => simp

theorem map_store_ne_nil (m : map_t) (i : Nat) (l : lock_t) :
    map_store m i l ≠ [] ↔ m ≠ [] := by
  have h := map_length_store m i l
  simp only [map_length] at h
  constructor
  · intro hne hm
    subst hm
    simp [map_store] at hne
  · intro hne hm
    rw [hm] at h
    exact hne (List.length_eq_zero.mp h.symm)

theorem map_length_remove_le (m : map_t) (key : String) :
    map_length (map_remove m key) ≤ map_length m := by
  have h := List.Sublist.length_le (map_keys_remove_sublist m key)
  simpa [map_keys, map_length] using h

/-- The three ways a call of `drop_inhibit` can end: nothing found; a Lock found and only
written to; a Lock found, a message published and `map_remove` called. -/
theorem drop_inhibit_cases (s : iface_t) (cookie : Option Int) (key : String) (force : Bool) :
    drop_inhibit s cookie key force = (-1, s)
    ∨ (∃ i l, s.lock_map ≠ [] ∧ drop_inhibit s cookie key force =
        (0, { s with lock_map := map_store s.lock_map i l }))
    ∨ (∃ i l msg, s.lock_map ≠ [] ∧ drop_inhibit s cookie key force =
        (0, { lock_map := map_remove (map_store s.lock_map i l) key
              lock_slot := if map_length (map_remove (map_store s.lock_map i l) key) = 0
                then false else s.lock_slot
              inhibit_req := msg
              inhibited := s.inhibited
              published := s.published ++ [msg] })) := by
  cases hf : drop_inhibit_lookup s cookie key with
  | none =>
      left
      simp [drop_inhibit, hf]
  | some r =>
      obtain ⟨i, l⟩ := r
      have hne : s.lock_map ≠ [] := by
        intro hnil
        simp [drop_inhibit_lookup, hnil, map_get] at hf
        cases cookie <;> simp [map_scan_cookie] at hf
      by_cases hz : (if force = true then (0 : Int) else l.refs - 1) = 0
      · right; right
        refine ⟨i, { l with refs := if force = true then 0 else l.refs - 1 },
          ⟨s.inhibited, false, decide (key = CLIGHT_INH_KEY), l.app, l.reason⟩, hne, ?_⟩
        simp only [drop_inhibit, hf, drop_inhibit_found, hz, if_true, sd_bus_slot_unref]
      · right; left
        refine ⟨i, { l with refs := if force = true then 0 else l.refs - 1 }, hne, ?_⟩
        simp only [drop_inhibit, hf, drop_inhibit_found, hz, if_false]

theorem on_bus_name_changed_cases (s : iface_t)
    (msg : Option (String × String × Option String)) :
    (on_bus_name_changed s msg).2 = s
    ∨ ∃ old_owner, (on_bus_name_changed s msg).2 = (drop_inhibit s none old_owner true).2 := by
  cases msg with
  | none => left; rfl
  | some t =>
      obtain ⟨name, old_owner, new_owner⟩ := t
      by_cases hc : (map_has_key s.lock_map old_owner && owner_gone new_owner) = true
      · right
        exact ⟨old_owner, by simp only [on_bus_name_changed, hc, if_true]⟩
      · left
        simp only [on_bus_name_changed, hc]
        rfl

theorem drop_inhibit_watch_ok (s : iface_t) (cookie : Option Int) (key : String)
    (force : Bool) (h : watch_ok s) : watch_ok (drop_inhibit s cookie key force).2 := by
  rcases drop_inhibit_cases s cookie key force with h1 | ⟨i, l, hne, h2⟩ | ⟨i, l, msg, hne, h3⟩
  · rw [h1]; exact h
  · rw [h2]
    simp only [watch_ok, map_store_ne_nil] at h ⊢
    exact h
  · rw [h3]
    simp only [watch_ok] at h ⊢
    by_cases hl : map_length (map_remove (map_store s.lock_map i l) key) = 0
    · have : map_remove (map_store s.lock_map i l) key = [] := by
        simpa [map_length] using hl
      rw [if_pos hl]
      simp [this]
    · have : map_remove (map_store s.lock_map i l) key ≠ [] := by
        simpa [map_length] using hl
      rw [if_neg hl]
      constructor
      · intro _; exact this
      · intro _; exact h.2 hne

theorem drop_inhibit_length_le (s : iface_t) (cookie : Option Int) (key : String)
    (force : Bool) :
    map_length (drop_inhibit s cookie key force).2.lock_map ≤ map_length s.lock_map := by
  rcases drop_inhibit_cases s cookie key force with h1 | ⟨i, l, _, h2⟩ | ⟨i, l, msg, _, h3⟩
  · rw [h1]
  · rw [h2]
    simp [map_length_store]
  · rw [h3]
    have := map_length_remove_le (map_store s.lock_map i l) key
    rw [map_length_store] at this
    exact this

theorem create_inhibit_watch_ok (s : iface_t) (cookie : Int) (key app_name reason : String)
    (malloc_ok : Bool) (rnd : Int) (h : watch_ok s) :
    watch_ok (create_inhibit s cookie key app_name reason malloc_ok rnd).2.2 := by
  cases hg : map_get s.lock_map key with
  | some r =>
      obtain ⟨i, l⟩ := r
      rw [create_inhibit_present s cookie key app_name reason malloc_ok rnd i l hg]
      simp only [watch_ok, map_store_ne_nil] at h ⊢
      exact h
  | none =>
      cases malloc_ok with
      | false =>
          rw [create_inhibit_nomem s cookie key app_name reason rnd hg]
          exact h
      | true =>
          rw [create_inhibit_absent s cookie key app_name reason rnd hg]
          simp only [watch_ok] at h ⊢
          by_cases hl : map_length s.lock_map = 0
          · simp [hl]
          · have : s.lock_map ≠ [] := by simpa [map_length] using hl
            simp [hl, h.2 this]

theorem create_inhibit_length (s : iface_t) (cookie : Int) (key app_name reason : String)
    (malloc_ok : Bool) (rnd : Int) :
    map_length s.lock_map ≤
        map_length (create_inhibit s cookie key app_name reason malloc_ok rnd).2.2.lock_map
    ∧ map_length (create_inhibit s cookie key app_name reason malloc_ok rnd).2.2.lock_map ≤
        map_length s.lock_map + 1 := by
  cases hg : map_get s.lock_map key with
  | some r =>
      obtain ⟨i, l⟩ := r
      rw [create_inhibit_present s cookie key app_name reason malloc_ok rnd i l hg]
      simp [map_length_store]
  | none =>
      cases malloc_ok with
      | false =>
          rw [create_inhibit_nomem s cookie key app_name reason rnd hg]
          simp
      | true =>
          rw [create_inhibit_absent s cookie key app_name reason rnd hg]
          simp [map_length]

theorem step_watch_ok (s : iface_t) (o : op_t) (h : watch_ok s) : watch_ok (step s o) := by
  cases o with
  | acquire cookie key app_name reason malloc_ok rnd =>
      exact create_inhibit_watch_ok s cookie key app_name reason malloc_ok rnd h
  | release cookie key force => exact drop_inhibit_watch_ok s cookie key force h
  | name_changed msg =>
      rcases on_bus_name_changed_cases s msg with h1 | ⟨old_owner, h2⟩
      · simp only [step, h1]; exact h
      · simp only [step, h2]; exact drop_inhibit_watch_ok s none old_owner true h

theorem run_watch_ok (s : iface_t) (ops : List op_t) (h : watch_ok s) :
    watch_ok (run s ops) := by
  induction ops generalizing s with
  | nil => exact h
  | cons o rest ih => exact ih (step s o) (step_watch_ok s o h)

theorem step_length_not_acquire (s : iface_t) (o : op_t) (h : o.is_acquire = false) :
    map_length (step s o).lock_map ≤ map_length s.lock_map := by
  cases o with
  | acquire cookie key app_name reason malloc_ok rnd => simp [op_t.is_acquire] at h
  | release cookie key force => exact drop_inhibit_length_le s cookie key force
  | name_changed msg =>
      rcases on_bus_name_changed_cases s msg with h1 | ⟨old_owner, h2⟩
      · simp only [step, h1]; exact le_refl _
      · simp only [step, h2]; exact drop_inhibit_length_le s none old_owner true

theorem step_length_acquire (s : iface_t) (o : op_t) (h : o.is_acquire = true) :
    map_length s.lock_map ≤ map_length (step s o).lock_map
    ∧ map_length (step s o).lock_map ≤ map_length s.lock_map + 1 := by
  cases o with
  | acquire cookie key app_name reason malloc_ok rnd =>
      exact create_inhibit_length s cookie key app_name reason malloc_ok rnd
  | release cookie key force => simp [op_t.is_acquire] at h
  | name_changed msg => simp [op_t.is_acquire] at h

theorem init_watch_ok (b : Bool) : watch_ok (init_state b) := by
  simp [watch_ok, init_state]

theorem slot_false_iff (s : iface_t) (h : watch_ok s) :
    s.lock_slot = false ↔ map_length s.lock_map = 0 := by
  simp only [watch_ok] at h
  constructor
  · intro hf
    by_contra hne
    have : s.lock_map ≠ [] := by simpa [map_length] using hne
    rw [h.2 this] at hf
    exact absurd hf (by decide)
  · intro hl
    have : s.lock_map = [] := by simpa [map_length] using hl
    cases hs : s.lock_slot with
    | false => rfl
    | true => exact absurd this (h.1 hs)

theorem slot_true_iff (s : iface_t) (h : watch_ok s) :
    s.lock_slot = true ↔ map_length s.lock_map ≠ 0 := by
  simp only [watch_ok] at h
  rw [h]
  simp [map_length]

/-- When the watch starts and stops, for a state in which it tracks the table. -/
theorem watch_transitions (s : iface_t) (o : op_t) (h : watch_ok s) :
    ((s.lock_slot = false ∧ (step s o).lock_slot = true) ↔
      (o.is_acquire = true ∧ map_length s.lock_map = 0
        ∧ map_length (step s o).lock_map = 1))
    ∧ ((s.lock_slot = true ∧ (step s o).lock_slot = false) ↔
      (o.is_acquire = false ∧ map_length s.lock_map ≠ 0
        ∧ map_length (step s o).lock_map = 0)) := by
  have h2 := step_watch_ok s o h
  rw [slot_false_iff s h, slot_true_iff s h, slot_false_iff _ h2, slot_true_iff _ h2]
  cases ha : o.is_acquire with
  | true =>
      have hl := step_length_acquire s o ha
      constructor
      · constructor
        · rintro ⟨h0, h1⟩
          exact ⟨rfl, h0, by omega⟩
        · rintro ⟨_, h0, h1⟩
          exact ⟨h0, by omega⟩
      · constructor
        · rintro ⟨h0, h1⟩
          omega
        · rintro ⟨hf, _, _⟩
          exact absurd hf (by decide)
  | false =>
      have hl := step_length_not_acquire s o ha
      constructor
      · constructor
        · rintro ⟨h0, h1⟩
          omega
        · rintro ⟨hf, _, _⟩
          exact absurd hf (by decide)
      · constructor
        · rintro ⟨h0, h1⟩
          exact ⟨rfl, h0, h1⟩
        · rintro ⟨_, h0, h1⟩
          exact ⟨h0, h1⟩

theorem drop_inhibit_map_wf (s : iface_t) (cookie : Option Int) (key : String)
    (force : Bool) (h : map_wf s.lock_map) :
    map_wf (drop_inhibit s cookie key force).2.lock_map := by
  rcases drop_inhibit_cases s cookie key force with h1 | ⟨i, l, _, h2⟩ | ⟨i, l, msg, _, h3⟩
  · rw [h1]; exact h
  · rw [h2]; exact map_wf_store _ i l h
  · rw [h3]; exact map_wf_remove _ key (map_wf_store _ i l h)

theorem create_inhibit_map_wf (s : iface_t) (cookie : Int) (key app_name reason : String)
    (malloc_ok : Bool) (rnd : Int) (h : map_wf s.lock_map) :
    map_wf (create_inhibit s cookie key app_name reason malloc_ok rnd).2.2.lock_map := by
  cases hg : map_get s.lock_map key with
  | some r =>
      obtain ⟨i, l⟩ := r
      rw [create_inhibit_present s cookie key app_name reason malloc_ok rnd i l hg]
      exact map_wf_store _ i _ h
  | none =>
      cases malloc_ok with
      | false =>
          rw [create_inhibit_nomem s cookie key app_name reason rnd hg]
          exact h
      | true =>
          rw [create_inhibit_absent s cookie key app_name reason rnd hg]
          exact map_wf_append _ key _ h hg

theorem step_map_wf (s : iface_t) (o : op_t) (h : map_wf s.lock_map) :
    map_wf (step s o).lock_map := by
  cases o with
  | acquire cookie key app_name reason malloc_ok rnd =>
      exact create_inhibit_map_wf s cookie key app_name reason malloc_ok rnd h
  | release cookie key force => exact drop_inhibit_map_wf s cookie key force h
  | name_changed msg =>
      rcases on_bus_name_changed_cases s msg with h1 | ⟨old_owner, h2⟩
      · simp only [step, h1]; exact h
      · simp only [step, h2]; exact drop_inhibit_map_wf s none old_owner true h

/-- Every table reached from a table with one Lock per key has one Lock per key. -/
theorem run_map_wf (s : iface_t) (ops : List op_t) (h : map_wf s.lock_map) :
    map_wf (run s ops).lock_map := by
  induction ops generalizing s with
  | nil => exact h
  | cons o rest ih => exact ih (step s o) (step_map_wf s o h)

/-! ## Facts about `init` and the doubles -/

theorem init_register_sum (e : init_env) : init_register e = (init_registrations e).sum := by
  obtain ⟨b1, b2, b3, b4, b5, b6, b7, r1, r2, r3, r4, r5, r6, r7, r8, r9, r10, r11, rn, rs,
    rm⟩ := e
  cases b1 <;> cases b2 <;> cases b3 <;> cases b4 <;> cases b5 <;> cases b6 <;> cases b7 <;>
    simp [init_register, init_registrations] <;> ring

theorem dbl_between (d : dbl) :
    (dbl.lt (.fin 0) d && dbl.lt d (.fin 1)) = true ↔ ∃ q, d = .fin q ∧ 0 < q ∧ q < 1 := by
  cases d with
  | nan => simp [dbl.lt]
  | neg_inf => simp [dbl.lt]
  | pos_inf => simp [dbl.lt]
  | fin q => simp [dbl.lt]

theorem dbl_ne_zero (d : dbl) : dbl.ne d (.fin 0) = true ↔ d ≠ .fin 0 := by
  cases d <;> simp [dbl.ne]

theorem location_known_iff (c : location_conf) :
    location_known c = true ↔
      ((c.sunrise ≠ "" ∧ c.sunset ≠ "") ∨ (c.lat ≠ .fin 0 ∧ c.lon ≠ .fin 0)) := by
  simp only [location_known, Bool.or_eq_true, Bool.and_eq_true, dbl_ne_zero, bne_iff_ne, ne_eq,
    string_length_zero]

/-- What a call of `drop_inhibit` publishes: nothing, or one message whose force flag tells
whether the key is the one of the daemon. -/
theorem drop_inhibit_published (s : iface_t) (cookie : Option Int) (key : String)
    (force : Bool) :
    (drop_inhibit s cookie key force).2.published = s.published
    ∨ ∃ l : lock_t, (drop_inhibit s cookie key force).2.published =
        s.published ++ [⟨s.inhibited, false, decide (key = CLIGHT_INH_KEY), l.app, l.reason⟩] := by
  cases hf : drop_inhibit_lookup s cookie key with
  | none =>
      left
      simp [drop_inhibit, hf]
  | some r =>
      obtain ⟨i, l⟩ := r
      by_cases hz : (if force = true then (0 : Int) else l.refs - 1) = 0
      · right
        exact ⟨l, by simp only [drop_inhibit, hf, drop_inhibit_found, hz, if_true]⟩
      · left
        simp only [drop_inhibit, hf, drop_inhibit_found, hz, if_false]

/-! ## Facts about the lifecycle -/

theorem is_satisfied_hard (g : mgr_t) (m t : module_id) (h : is_satisfied g m = true)
    (he : (⟨.HARD, t⟩ : dependency) ∈ g.deps m) : g.state t = .RUNNING := by
  simp only [is_satisfied, List.all_eq_true] at h
  have h2 := h _ he
  simp at h2
  exact h2.1

theorem set_state_apply (g : mgr_t) (m x : module_id) (st : lifecycle) :
    (set_state g m st).state x = if x = m then st else g.state x := rfl

/-- What one event can do to the state of one module. -/
theorem mgr_step_state (g : mgr_t) (ev : mgr_event) (m : module_id) :
    (mgr_step g ev).state m = g.state m
    ∨ (g.state m = .REGISTERED ∧ (mgr_step g ev).state m = .CHECKED)
    ∨ ((mgr_step g ev).state m = .DISABLED)
    ∨ (g.state m = .CHECKED ∧ is_satisfied g m = true
        ∧ (mgr_step g ev).state m = .INITIALIZING)
    ∨ (g.state m = .INITIALIZING ∧ ev = .init_end m true
        ∧ (mgr_step g ev).state m = .RUNNING)
    ∨ (g.state m = .RUNNING ∧ (mgr_step g ev).state m = .DESTROYING)
    ∨ (g.state m = .DESTROYING ∧ (mgr_step g ev).state m = .DESTROYED)
    ∨ ((mgr_step g ev).state m = .POISONED) := by
  cases ev with
  | check x ok rc =>
      by_cases h1 : g.state x = .REGISTERED
      · by_cases h2 : m = x
        · subst h2
          cases ok with
          | true =>
              right; left
              exact ⟨h1, by simp [mgr_step, h1, set_state]⟩
          | false =>
              right; right; left
              simp [mgr_step, h1, set_state]
        · left
          simp [mgr_step, h1, set_state, h2]
      · left
        simp [mgr_step, h1]
  | disable x =>
      by_cases h1 : g.state x = .CHECKED ∧ hard_unsatisfied g x = true
      · by_cases h2 : m = x
        · subst h2
          right; right; left
          simp [mgr_step, h1, set_state]
        · left
          simp [mgr_step, h1, set_state, h2]
      · left
        simp only [mgr_step, h1, if_false]
  | init_begin x =>
      by_cases h1 : g.state x = .CHECKED ∧ is_satisfied g x = true
      · by_cases h2 : m = x
        · subst h2
          right; right; right; left
          exact ⟨h1.1, h1.2, by simp [mgr_step, h1, set_state]⟩
        · left
          simp [mgr_step, h1, set_state, h2]
      · left
        simp only [mgr_step, h1, if_false]
  | init_end x ok =>
      by_cases h1 : g.state x = .INITIALIZING
      · by_cases h2 : m = x
        · subst h2
          cases ok with
          | true =>
              right; right; right; right; left
              exact ⟨h1, rfl, by simp [mgr_step, h1, set_state]⟩
          | false =>
              right; right; left
              simp [mgr_step, h1, set_state]
        · left
          simp [mgr_step, h1, set_state, h2]
      · left
        simp [mgr_step, h1]
  | destroy_begin x =>
      by_cases h1 : g.state x = .RUNNING
      · by_cases h2 : m = x
        · subst h2
          right; right; right; right; right; left
          exact ⟨h1, by simp [mgr_step, h1, set_state]⟩
        · left
          simp [mgr_step, h1, set_state, h2]
      · left
        simp [mgr_step, h1]
  | destroy_end x =>
      by_cases h1 : g.state x = .DESTROYING
      · by_cases h2 : m = x
        · subst h2
          right; right; right; right; right; right; left
          exact ⟨h1, by simp [mgr_step, h1, set_state]⟩
        · left
          simp [mgr_step, h1, set_state, h2]
      · left
        simp [mgr_step, h1]
  | poison x =>
      by_cases h1 : g.state x = .DISABLED ∨ g.state x = .DESTROYED ∨ g.state x = .POISONED
          ∨ g.state x = .UNREGISTERED
      · left
        simp only [mgr_step, h1, if_true]
      · by_cases h2 : m = x
        · subst h2
          right; right; right; right; right; right; right
          simp only [mgr_step, h1, if_false, set_state, if_true]
        · left
          simp only [mgr_step, h1, if_false, set_state, h2]

/-- A module that has not been initialised and has a HARD edge to a module that is not
RUNNING is not initialised by the next event. -/
theorem mgr_step_pre_init (g : mgr_t) (ev : mgr_event) (m t : module_id)
    (hp : (g.state m).pre_init = true) (he : (⟨.HARD, t⟩ : dependency) ∈ g.deps m)
    (ht : g.state t ≠ .RUNNING) : ((mgr_step g ev).state m).pre_init = true := by
  rcases mgr_step_state g ev m with h | ⟨_, h⟩ | h | ⟨_, hs, _⟩ | ⟨h0, _, _⟩ | ⟨h0, _⟩
    | ⟨h0, _⟩ | h
  · rw [h]; exact hp
  · rw [h]; rfl
  · rw [h]; rfl
  · exact absurd (is_satisfied_hard g m t hs he) ht
  · rw [h0] at hp; exact absurd hp (by decide)
  · rw [h0] at hp; exact absurd hp (by decide)
  · rw [h0] at hp; exact absurd hp (by decide)
  · rw [h]; rfl

theorem pre_init_not_started (st : lifecycle) (h : st.pre_init = true) :
    st ≠ .INITIALIZING ∧ st ≠ .RUNNING := by
  cases st <;> simp [lifecycle.pre_init] at h ⊢

theorem mgr_trace_head (g : mgr_t) (evs : List mgr_event) : g ∈ mgr_trace g evs := by
  cases evs <;> simp [mgr_trace]

/-- Along a run on which module `m` keeps a HARD edge to a module that is never RUNNING,
`m` is never initialised. -/
theorem mgr_trace_pre_init (g0 : mgr_t) (evs : List mgr_event) (m t : module_id)
    (hp : (g0.state m).pre_init = true)
    (h : ∀ g ∈ mgr_trace g0 evs, (⟨.HARD, t⟩ : dependency) ∈ g.deps m ∧ g.state t ≠ .RUNNING) :
    ∀ g ∈ mgr_trace g0 evs, (g.state m).pre_init = true := by
  induction evs generalizing g0 with
  | nil =>
      intro g hg
      simp only [mgr_trace, List.mem_singleton] at hg
      rw [hg]
      exact hp
  | cons ev rest ih =>
      intro g hg
      simp only [mgr_trace, List.mem_cons] at hg
      rcases hg with rfl | hg
      · exact hp
      · have h0 := h g0 (mgr_trace_head g0 (ev :: rest))
        have hp1 := mgr_step_pre_init g0 ev m t hp h0.1 h0.2
        exact ih (mgr_step g0 ev) hp1
          (fun g1 hg1 => h g1 (by simp only [mgr_trace, List.mem_cons]; exact Or.inr hg1)) g hg

theorem reclassify_all_other (d : dep_graph) (rc : List (module_id × module_id × dep_type))
    (m : module_id) (h : rc.any (fun x => x.1 == m) = false) :
    reclassify_all d rc m = d m := by
  induction rc generalizing d with
  | nil => rfl
  | cons x rest ih =>
      obtain ⟨a, b, k⟩ := x
      simp only [List.any_cons, Bool.or_eq_false_iff, beq_eq_false_iff_ne, ne_eq] at h
      rw [reclassify_all, ih _ h.2]
      have : ¬ m = a := fun e => h.1 e.symm
      simp [change_dep_type, this]

theorem mgr_step_deps (g : mgr_t) (ev : mgr_event) (m : module_id)
    (h : ev.reclassifies m = false) : (mgr_step g ev).deps m = g.deps m := by
  cases ev with
  | check x ok rc =>
      simp only [mgr_event.reclassifies] at h
      by_cases h1 : g.state x = .REGISTERED
      · simp only [mgr_step, h1, if_true, set_state]
        exact reclassify_all_other g.deps rc m h
      · simp only [mgr_step, h1, if_false]
  | disable x => simp only [mgr_step]; split_ifs <;> rfl
  | init_begin x => simp only [mgr_step]; split_ifs <;> rfl
  | init_end x ok =>
      by_cases h1 : g.state x = .INITIALIZING
      · simp only [mgr_step, h1, if_true, set_state]
      · simp only [mgr_step, h1, if_false]
  | destroy_begin x => simp only [mgr_step]; split_ifs <;> rfl
  | destroy_end x => simp only [mgr_step]; split_ifs <;> rfl
  | poison x => simp only [mgr_step]; split_ifs <;> rfl

theorem mgr_step_running (g : mgr_t) (ev : mgr_event) (t : module_id)
    (h : g.state t ≠ .RUNNING) (hev : ev ≠ .init_end t true) :
    (mgr_step g ev).state t ≠ .RUNNING := by
  rcases mgr_step_state g ev t with h1 | ⟨_, h1⟩ | h1 | ⟨_, _, h1⟩ | ⟨_, he, _⟩ | ⟨_, h1⟩
    | ⟨_, h1⟩ | h1
  · rw [h1]; exact h
  · rw [h1]; decide
  · rw [h1]; decide
  · rw [h1]; decide
  · exact absurd he hev
  · rw [h1]; decide
  · rw [h1]; decide
  · rw [h1]; decide

/-- Along a run without a successful `init` of `t` and without a reclassification of the
edges of `m`, the edges of `m` stay what they are and `t` is never RUNNING. -/
theorem mgr_trace_frame (g0 : mgr_t) (evs : List mgr_event) (m t : module_id)
    (ht : g0.state t ≠ .RUNNING)
    (hev : ∀ ev ∈ evs, ev ≠ .init_end t true ∧ ev.reclassifies m = false) :
    ∀ g ∈ mgr_trace g0 evs, g.deps m = g0.deps m ∧ g.state t ≠ .RUNNING := by
  induction evs generalizing g0 with
  | nil =>
      intro g hg
      simp only [mgr_trace, List.mem_singleton] at hg
      rw [hg]
      exact ⟨rfl, ht⟩
  | cons ev rest ih =>
      intro g hg
      simp only [mgr_trace, List.mem_cons] at hg
      rcases hg with rfl | hg
      · exact ⟨rfl, ht⟩
      · have h0 := hev ev (List.mem_cons_self ev rest)
        have h1 := ih (mgr_step g0 ev) (mgr_step_running g0 ev t ht h0.1)
          (fun e he => hev e (List.mem_cons_of_mem ev he)) g hg
        rw [mgr_step_deps g0 ev m h0.2] at h1
        exact h1

/-! ## Positions, cookies and the release by cookie -/

theorem map_get_getElem (m : map_t) (key : String) (i : Nat) (l : lock_t)
    (h : map_get m key = some (i, l)) : m[i]? = some (key, l) := by
  induction m generalizing i with
  | nil => simp [map_get] at h
  | cons e rest ih =>
      obtain ⟨k0, l0⟩ := e
      by_cases hk : k0 = key
      · simp [map_get, hk] at h
        obtain ⟨hi, hl⟩ := h
        subst hi; subst hl
        simp [hk]
      · simp only [map_get, hk, if_false] at h
        cases hr : map_get rest key with
        | none => simp [hr] at h
        | some r =>
            obtain ⟨j, lj⟩ := r
            simp [hr] at h
            obtain ⟨hi, hl⟩ := h
            subst hi; subst hl
            simpa using ih j hr

theorem map_scan_getElem (m : map_t) (c : Int) (i : Nat) (l : lock_t)
    (h : map_scan_cookie m c = some (i, l)) : ∃ k, m[i]? = some (k, l) ∧ l.cookie = c := by
  induction m generalizing i with
  | nil => simp [map_scan_cookie] at h
  | cons e rest ih =>
      obtain ⟨k0, l0⟩ := e
      by_cases hc : l0.cookie = c
      · simp [map_scan_cookie, hc] at h
        obtain ⟨hi, hl⟩ := h
        subst hi; subst hl
        exact ⟨k0, by simp, hc⟩
      · simp only [map_scan_cookie, hc, if_false] at h
        cases hr : map_scan_cookie rest c with
        | none => simp [hr] at h
        | some r =>
            obtain ⟨j, lj⟩ := r
            simp [hr] at h
            obtain ⟨hi, hl⟩ := h
            subst hi; subst hl
            obtain ⟨k, hk, hck⟩ := ih j hr
            exact ⟨k, by simpa using hk, hck⟩

theorem map_store_cookies (m : map_t) (j : Nat) (k : String) (l l1 : lock_t)
    (h : m[j]? = some (k, l)) (hc : l1.cookie = l.cookie) :
    (map_store m j l1).map (fun e => e.2.cookie) = m.map (fun e => e.2.cookie) := by
  induction m generalizing j with
  | nil => simp [map_store]
  | cons e rest ih =>
      obtain ⟨k0, l0⟩ := e
      cases j with
      | zero =>
          simp at h
          obtain ⟨_, hl⟩ := h
          subst hl
          simp [map_store, hc]
      | succ j0 =>
          simp at h
          simp [map_store, ih j0 h]

theorem map_get_store_other (m : map_t) (key : String) (i j : Nat) (l l1 : lock_t)
    (h : map_get m key = some (i, l)) (hne : j ≠ i) :
    map_get (map_store m j l1) key = some (i, l) := by
  induction m generalizing i j with
  | nil => simp [map_get] at h
  | cons e rest ih =>
      obtain ⟨k0, l0⟩ := e
      by_cases hk : k0 = key
      · simp [map_get, hk] at h
        obtain ⟨hi, hl⟩ := h
        subst hi; subst hl
        cases j with
        | zero => exact absurd rfl hne
        | succ j0 => simp [map_store, map_get, hk]
      · simp only [map_get, hk, if_false] at h
        cases hr : map_get rest key with
        | none => simp [hr] at h
        | some r =>
            obtain ⟨i0, li⟩ := r
            simp [hr] at h
            obtain ⟨hi, hl⟩ := h
            subst hi; subst hl
            cases j with
            | zero => simp [map_store, map_get, hk, hr]
            | succ j0 =>
                have hne0 : j0 ≠ i0 := fun e => hne (by rw [e])
                simp [map_store, map_get, hk, ih i0 j0 hr hne0]

theorem map_remove_cookies_sublist (m : map_t) (key : String) :
    ((map_remove m key).map (fun e => e.2.cookie)).Sublist (m.map (fun e => e.2.cookie)) := by
  induction m with
  | nil => simp [map_remove]
  | cons e rest ih =>
      obtain ⟨k0, l0⟩ := e
      by_cases hk : k0 = key
      · simp [map_remove, hk]
      · simp [map_remove, hk, ih]

/-- The Lock `drop_inhibit` works on sits at the position found, under the key given or, when
found by the scan, with the cookie given. -/
theorem drop_inhibit_lookup_getElem (s : iface_t) (cookie : Option Int) (key : String)
    (j : Nat) (l : lock_t) (h : drop_inhibit_lookup s cookie key = some (j, l)) :
    ∃ k, s.lock_map[j]? = some (k, l) ∧ (k = key ∨ ∃ c, cookie = some c ∧ l.cookie = c) := by
  cases hg : map_get s.lock_map key with
  | some r =>
      obtain ⟨i, li⟩ := r
      simp [drop_inhibit_lookup, hg] at h
      obtain ⟨hi, hl⟩ := h
      subst hi; subst hl
      exact ⟨key, map_get_getElem _ _ _ _ hg, Or.inl rfl⟩
  | none =>
      cases cookie with
      | none => simp [drop_inhibit_lookup, hg] at h
      | some c =>
          simp only [drop_inhibit_lookup, hg] at h
          obtain ⟨k, hk, hc⟩ := map_scan_getElem _ _ _ _ h
          exact ⟨k, hk, Or.inr ⟨c, rfl, hc⟩⟩

/-- The table after a call of `drop_inhibit` that found a Lock: the Lock is written to at its
position, and `map_remove` is then called with the key given when the refcount is 0. -/
theorem drop_inhibit_lock_map (s : iface_t) (cookie : Option Int) (key : String) (force : Bool)
    (j : Nat) (l : lock_t) (h : drop_inhibit_lookup s cookie key = some (j, l)) :
    (drop_inhibit s cookie key force).2.lock_map =
        map_store s.lock_map j { l with refs := if force = true then 0 else l.refs - 1 }
    ∨ (drop_inhibit s cookie key force).2.lock_map =
        map_remove
          (map_store s.lock_map j { l with refs := if force = true then 0 else l.refs - 1 }) key := by
  by_cases hz : (if force = true then (0 : Int) else l.refs - 1) = 0
  · right
    simp only [drop_inhibit, h, drop_inhibit_found, hz, if_true]
  · left
    simp only [drop_inhibit, h, drop_inhibit_found, hz, if_false]

theorem drop_inhibit_lookup_none (s : iface_t) (cookie : Option Int) (key : String)
    (force : Bool) (h : drop_inhibit_lookup s cookie key = none) :
    drop_inhibit s cookie key force = (-1, s) := by
  simp [drop_inhibit, h]

theorem drop_inhibit_cookies (s : iface_t) (cookie : Option Int) (key : String) (force : Bool)
    (h : cookies_distinct s.lock_map) :
    cookies_distinct (drop_inhibit s cookie key force).2.lock_map := by
  cases hf : drop_inhibit_lookup s cookie key with
  | none =>
      rw [drop_inhibit_lookup_none s cookie key force hf]
      exact h
  | some r =>
      obtain ⟨j, l⟩ := r
      obtain ⟨k, hk, _⟩ := drop_inhibit_lookup_getElem s cookie key j l hf
      have hst := map_store_cookies s.lock_map j k l
        { l with refs := if force = true then 0 else l.refs - 1 } hk rfl
      rcases drop_inhibit_lock_map s cookie key force j l hf with h1 | h1
      · rw [h1]
        unfold cookies_distinct
        rw [hst]
        exact h
      · rw [h1]
        unfold cookies_distinct
        have hsub := map_remove_cookies_sublist
          (map_store s.lock_map j { l with refs := if force = true then 0 else l.refs - 1 }) key
        rw [hst] at hsub
        exact List.Nodup.sublist hsub h

theorem create_inhibit_cookies (s : iface_t) (cookie : Int) (key app_name reason : String)
    (malloc_ok : Bool) (rnd : Int) (h : cookies_distinct s.lock_map)
    (hf : map_lookup s.lock_map key = none → malloc_ok = true →
      ¬ has_cookie s.lock_map (create_inhibit s cookie key app_name reason malloc_ok rnd).2.1) :
    cookies_distinct (create_inhibit s cookie key app_name reason malloc_ok rnd).2.2.lock_map := by
  cases hg : map_get s.lock_map key with
  | some r =>
      obtain ⟨i, l⟩ := r
      rw [create_inhibit_present s cookie key app_name reason malloc_ok rnd i l hg]
      have hst := map_store_cookies s.lock_map i key l { l with refs := l.refs + 1 }
        (map_get_getElem _ _ _ _ hg) rfl
      unfold cookies_distinct
      simp only []
      rw [hst]
      exact h
  | none =>
      cases malloc_ok with
      | false =>
          rw [create_inhibit_nomem s cookie key app_name reason rnd hg]
          exact h
      | true =>
          have hl : map_lookup s.lock_map key = none := by simp [map_lookup, hg]
          have hfresh := hf hl rfl
          rw [create_inhibit_absent s cookie key app_name reason rnd hg] at hfresh ⊢
          unfold cookies_distinct at h ⊢
          simp only [List.map_append, List.map_cons, List.map_nil]
          rw [List.nodup_append]
          refine ⟨h, by simp, ?_⟩
          intro a ha hb
          simp only [List.mem_singleton] at hb
          subst hb
          apply hfresh
          simp only [List.mem_map] at ha
          obtain ⟨e, he, hec⟩ := ha
          exact ⟨e, he, hec⟩

theorem run_cookies (s : iface_t) (ops : List op_t) (h : cookies_distinct s.lock_map)
    (hf : ops_fresh s ops) : cookies_distinct (run s ops).lock_map := by
  induction ops generalizing s with
  | nil => exact h
  | cons o rest ih =>
      simp only [ops_fresh] at hf
      apply ih (step s o) _ hf.2
      cases o with
      | acquire cookie key app_name reason malloc_ok rnd =>
          exact create_inhibit_cookies s cookie key app_name reason malloc_ok rnd h hf.1
      | release cookie key force => exact drop_inhibit_cookies s cookie key force h
      | name_changed msg =>
          rcases on_bus_name_changed_cases s msg with h1 | ⟨old_owner, h2⟩
          · simp only [step, h1]; exact h
          · simp only [step, h2]; exact drop_inhibit_cookies s none old_owner true h

theorem cookies_distinct_lookup (m : map_t) (h : cookies_distinct m) (k1 k2 : String)
    (l1 l2 : lock_t) (hne : k1 ≠ k2) (h1 : map_lookup m k1 = some l1)
    (h2 : map_lookup m k2 = some l2) : l1.cookie ≠ l2.cookie := by
  have mem_of : ∀ (m0 : map_t) (k : String) (l : lock_t),
      map_lookup m0 k = some l → (k, l) ∈ m0 := by
    intro m0 k l hl
    cases hg : map_get m0 k with
    | none => simp [map_lookup, hg] at hl
    | some r =>
        obtain ⟨i, li⟩ := r
        simp [map_lookup, hg] at hl
        subst hl
        exact map_get_mem m0 k i li hg
  induction m with
  | nil => simp [map_lookup, map_get] at h1
  | cons e rest ih =>
      obtain ⟨k0, l0⟩ := e
      unfold cookies_distinct at h ih
      simp only [List.map_cons, List.nodup_cons, List.mem_map, not_exists, not_and] at h
      rw [map_lookup_cons] at h1 h2
      by_cases hk1 : k0 = k1
      · have hk2 : ¬ k0 = k2 := fun e => hne (hk1.symm.trans e)
        simp only [hk1, if_true, Option.some.injEq] at h1
        simp only [hk2, if_false] at h2
        subst h1
        intro hc
        exact h.1 (k2, l2) (mem_of rest k2 l2 h2) hc.symm
      · simp only [hk1, if_false] at h1
        by_cases hk2 : k0 = k2
        · simp only [hk2, if_true, Option.some.injEq] at h2
          subst h2
          intro hc
          exact h.1 (k1, l1) (mem_of rest k1 l1 h1) hc
        · simp only [hk2, if_false] at h2
          exact ih h.2 h1 h2

theorem after_dot_some (l : List Char) (h : '.' ∈ l) : ∃ minor, after_dot l = some minor := by
  induction l with
  | nil => simp at h
  | cons c t ih =>
      by_cases hc : c = '.'
      · exact ⟨t, by simp [after_dot, hc]⟩
      · have ht : '.' ∈ t := by
          rcases List.mem_cons.mp h with h0 | h0
          · exact absurd h0.symm hc
          · exact h0
        obtain ⟨minor, hm⟩ := ih ht
        exact ⟨minor, by simp [after_dot, hc, hm]⟩

theorem int_of_u32_ne_cookie (u : Nat) (hu : u < 4294967296) (hne : u ≠ 4294967295) :
    int_of_u32 u ≠ CLIGHT_COOKIE := by
  unfold int_of_u32 int_of_long CLIGHT_COOKIE
  omega

/-- What `inhibit_parse_msg` does where it is defined: a message without a member changes
nothing.  For a message with a member and an interface: on interface org.freedesktop.ScreenSaver, member
`Inhibit` and signature `ss` with readable arguments, `inhibit_parse_msg` is exactly a
`create_inhibit` for the sender; on that interface, member `UnInhibit` and signature `u`, it
is exactly a non-forced `drop_inhibit` by the key of the sender with no cookie; for every
other member, interface or signature the whole state (lock table and published messages)
is unchanged. -/
theorem inhibit_parse_msg_cases (s : iface_t) (m : bus_msg) (malloc_ok : Bool) (rnd : Int) :
    (m.member = none → inhibit_parse_msg s m malloc_ok rnd = some s)
    ∧ (∀ member interface, m.member = some member → m.interface = some interface →
        ((interface = sc_interface ∧ member = "Inhibit" ∧ m.signature = "ss") →
          ∀ app_name reason, m.args_ss = .ok (app_name, reason) →
            inhibit_parse_msg s m malloc_ok rnd =
              some (create_inhibit s 0 m.sender app_name reason malloc_ok rnd).2.2)
        ∧ ((interface = sc_interface ∧ member = "UnInhibit" ∧ m.signature = "u") →
            inhibit_parse_msg s m malloc_ok rnd = some (drop_inhibit s none m.sender false).2)
        ∧ (¬ (interface = sc_interface ∧ member = "Inhibit" ∧ m.signature = "ss") →
            ¬ (interface = sc_interface ∧ member = "UnInhibit" ∧ m.signature = "u") →
            inhibit_parse_msg s m malloc_ok rnd = some s)) := by
  constructor
  · intro h
    simp [inhibit_parse_msg, h]
  · intro member interface hm hi
    refine ⟨?_, ?_, ?_⟩
    · rintro ⟨h1, h2, h3⟩ app_name reason hargs
      simp [inhibit_parse_msg, hm, hi, inhibit_parse_entry, sc_vtable_method, h1, h2, h3, hargs]
    · rintro ⟨h1, h2, h3⟩
      simp [inhibit_parse_msg, hm, hi, inhibit_parse_entry, sc_vtable_method, h1, h2, h3]
    · intro hn1 hn2
      have e1 : ¬ (interface = sc_interface ∧ member = (sc_vtable_method 1).1
          ∧ m.signature = (sc_vtable_method 1).2) := hn1
      have e2 : ¬ (interface = sc_interface ∧ member = (sc_vtable_method 2).1
          ∧ m.signature = (sc_vtable_method 2).2) := hn2
      simp only [inhibit_parse_msg, hm, hi, inhibit_parse_entry, e1, e2, if_false]

/-- A monitored UnInhibit of a client is a release by its key. -/
theorem inhibit_parse_msg_cases_uninhibit :
    inhibit_parse_msg one_client
        { member := some "UnInhibit", signature := "u", interface := some sc_interface,
          sender := ":1.10", args_ss := .error (-6) } true 0 =
      some (drop_inhibit one_client none ":1.10" false).2 :=
  ((inhibit_parse_msg_cases one_client
      { member := some "UnInhibit", signature := "u", interface := some sc_interface,
        sender := ":1.10", args_ss := .error (-6) } true 0).2
    "UnInhibit" sc_interface rfl rfl).2.1 ⟨rfl, rfl, rfl⟩

/-! ## The claims -/

/-- C3 (forced release): whenever `key` owns a Lock, whatever its refcount, `drop_inhibit`
with `force = true` returns 0, the table no longer holds a Lock for `key` and has one entry
less, every other key keeps its Lock, and exactly one message is published, with
`new = false`. -/
theorem C3_forced_release (s : iface_t) (cookie : Option Int) (key : String) (i : Nat)
    (l : lock_t) (hwf : map_wf s.lock_map) (h : map_get s.lock_map key = some (i, l)) :
    (drop_inhibit s cookie key true).1 = 0
    ∧ map_lookup (drop_inhibit s cookie key true).2.lock_map key = none
    ∧ map_length (drop_inhibit s cookie key true).2.lock_map + 1 = map_length s.lock_map
    ∧ (∀ k, k ≠ key →
        map_lookup (drop_inhibit s cookie key true).2.lock_map k = map_lookup s.lock_map k)
    ∧ ∃ msg, (drop_inhibit s cookie key true).2.published = s.published ++ [msg]
        ∧ msg.new = false :=
  forced_release_by_key s cookie key i l hwf h

/-- Witness of C3: a Lock with refcount 5 is removed by one forced release. -/
theorem C3_forced_release_witness :
    map_get five_refs.lock_map ":1.10" = some (0, ⟨11, 5, "vlc", "video"⟩)
    ∧ (drop_inhibit five_refs none ":1.10" true).1 = 0
    ∧ map_lookup (drop_inhibit five_refs none ":1.10" true).2.lock_map ":1.10" = none :=
  ⟨by decide,
   (C3_forced_release five_refs none ":1.10" 0 ⟨11, 5, "vlc", "video"⟩
      (by decide) (by decide)).1,
   (C3_forced_release five_refs none ":1.10" 0 ⟨11, 5, "vlc", "video"⟩
      (by decide) (by decide)).2.1⟩

/-- C6 (lookup miss is atomic): when `key` owns no Lock and either no cookie is supplied or
no Lock carries the supplied cookie, `drop_inhibit` returns -1 and the whole state (lock
table, watch, pending request, published messages) is unchanged; when a Lock is matched by
key or by cookie it returns 0. -/
theorem C6_lookup_miss (s : iface_t) (cookie : Option Int) (key : String) (force : Bool) :
    (map_lookup s.lock_map key = none
        ∧ (cookie = none ∨ ∃ c, cookie = some c ∧ ¬ has_cookie s.lock_map c) →
      drop_inhibit s cookie key force = (-1, s))
    ∧ ((map_lookup s.lock_map key).isSome
        ∨ (∃ c, cookie = some c ∧ has_cookie s.lock_map c) →
      (drop_inhibit s cookie key force).1 = 0) := by
  constructor
  · rintro ⟨hk, hc⟩
    have hk2 : map_get s.lock_map key = none := by
      simpa [map_lookup] using hk
    exact drop_inhibit_miss s cookie key force hk2 hc
  · intro hm
    cases hg : map_get s.lock_map key with
    | some r =>
        obtain ⟨i, l⟩ := r
        simp only [drop_inhibit, drop_inhibit_lookup, hg]
        exact drop_inhibit_found_ret s key force i l
    | none =>
        rcases hm with hk | ⟨c, hc, hcook⟩
        · simp [map_lookup, hg] at hk
        · cases hs : map_scan_cookie s.lock_map c with
          | none =>
              rw [map_scan_cookie_none_iff] at hs
              exact absurd hcook hs
          | some r =>
              obtain ⟨i, l⟩ := r
              simp only [drop_inhibit, drop_inhibit_lookup, hg, hc, hs]
              exact drop_inhibit_found_ret s key force i l

/-- Witness of C6: an unknown sender with an unknown cookie fails and changes nothing; the
same sender with the cookie of an existing Lock is answered with success. -/
theorem C6_lookup_miss_witness :
    drop_inhibit two_clients (some 33) ":1.12" false = (-1, two_clients)
    ∧ (drop_inhibit two_clients (some 22) ":1.12" false).1 = 0 :=
  ⟨(C6_lookup_miss two_clients (some 33) ":1.12" false).1
      ⟨by decide, Or.inr ⟨33, rfl, by decide⟩⟩,
   (C6_lookup_miss two_clients (some 22) ":1.12" false).2
      (Or.inr ⟨22, rfl, by decide⟩)⟩

/-- C10 (new Lock creation): when `key` owns no Lock and `create_inhibit` returns 0, the
table is the old one with exactly one entry added, the Lock of `key` with refcount 1 and the
given app name and reason; its cookie is the caller's value when that is `CLIGHT_COOKIE` and
the value of `random()` (as stored in an `int`) otherwise; the cookie handed back is the one
stored; every other key keeps its Lock. -/
theorem C10_new_lock (s : iface_t) (cookie : Int) (key app_name reason : String)
    (malloc_ok : Bool) (rnd : Int) (h : map_lookup s.lock_map key = none)
    (hok : (create_inhibit s cookie key app_name reason malloc_ok rnd).1 = 0) :
    (create_inhibit s cookie key app_name reason malloc_ok rnd).2.2.lock_map =
        s.lock_map ++ [(key, ⟨(create_inhibit s cookie key app_name reason malloc_ok rnd).2.1,
                              1, app_name, reason⟩)]
    ∧ map_lookup (create_inhibit s cookie key app_name reason malloc_ok rnd).2.2.lock_map key =
        some ⟨(create_inhibit s cookie key app_name reason malloc_ok rnd).2.1,
              1, app_name, reason⟩
    ∧ (cookie = CLIGHT_COOKIE →
        (create_inhibit s cookie key app_name reason malloc_ok rnd).2.1 = cookie)
    ∧ (cookie ≠ CLIGHT_COOKIE →
        (create_inhibit s cookie key app_name reason malloc_ok rnd).2.1 = int_of_long rnd)
    ∧ (0 ≤ rnd ∧ rnd < 2147483648 → int_of_long rnd = rnd)
    ∧ (∀ k, k ≠ key →
        map_lookup (create_inhibit s cookie key app_name reason malloc_ok rnd).2.2.lock_map k =
          map_lookup s.lock_map k) := by
  have hk : map_get s.lock_map key = none := by
    simpa [map_lookup] using h
  cases malloc_ok with
  | false =>
      rw [create_inhibit_nomem s cookie key app_name reason rnd hk] at hok
      simp at hok
  | true =>
      rw [create_inhibit_absent s cookie key app_name reason rnd hk]
      refine ⟨rfl, ?_, ?_, ?_, ?_, ?_⟩
      · simp [map_lookup, map_get_append_absent s.lock_map key _ hk]
      · intro hc
        simp [hc]
      · intro hc
        simp [hc]
      · rintro ⟨h0, h1⟩
        unfold int_of_long
        omega
      · intro k hne
        exact map_lookup_append_ne s.lock_map key k _ hne

/-- Witness of C10: a third client gets a fresh Lock whose cookie is the random value. -/
theorem C10_new_lock_witness :
    map_lookup two_clients.lock_map ":1.12" = none
    ∧ map_lookup (create_inhibit two_clients 0 ":1.12" "mpv" "film" true 33).2.2.lock_map
        ":1.12" = some ⟨33, 1, "mpv", "film"⟩ :=
  ⟨by decide,
   (C10_new_lock two_clients 0 ":1.12" "mpv" "film" true 33 (by decide) (by decide)).2.1⟩

/-- C5 (automatic release on disappearance): `on_bus_name_changed` does exactly a forced
release of `old_owner` when `old_owner` owns a Lock and the new owner is NULL or empty;
then that Lock is gone, every other key keeps its Lock and exactly one message, with
`new = false`, is published, whatever the refcount was.  In every other case, and when the
signal cannot be read, the state is unchanged. -/
theorem C5_disappearance (s : iface_t) (name old_owner : String) (new_owner : Option String)
    (hwf : map_wf s.lock_map) :
    ((map_lookup s.lock_map old_owner).isSome ∧ (new_owner = none ∨ new_owner = some "") →
      on_bus_name_changed s (some (name, old_owner, new_owner)) =
          (0, (drop_inhibit s none old_owner true).2)
      ∧ map_lookup (on_bus_name_changed s (some (name, old_owner, new_owner))).2.lock_map
          old_owner = none
      ∧ (∀ k, k ≠ old_owner →
          map_lookup (on_bus_name_changed s (some (name, old_owner, new_owner))).2.lock_map k =
            map_lookup s.lock_map k)
      ∧ ∃ msg, (on_bus_name_changed s (some (name, old_owner, new_owner))).2.published =
          s.published ++ [msg] ∧ msg.new = false)
    ∧ (¬ ((map_lookup s.lock_map old_owner).isSome
          ∧ (new_owner = none ∨ new_owner = some "")) →
      on_bus_name_changed s (some (name, old_owner, new_owner)) = (0, s))
    ∧ on_bus_name_changed s none = (0, s) := by
  have hgone : owner_gone new_owner = true ↔
      (new_owner = none ∨ new_owner = some "") := by
    cases new_owner with
    | none => simp [owner_gone]
    | some n => simp [owner_gone, string_length_zero]
  have hhas : map_has_key s.lock_map old_owner = (map_lookup s.lock_map old_owner).isSome := by
    simp [map_has_key, map_lookup]
  refine ⟨?_, ?_, rfl⟩
  · rintro ⟨hown, hnew⟩
    have hcond : (map_has_key s.lock_map old_owner && owner_gone new_owner) = true := by
      rw [Bool.and_eq_true, hgone, hhas]
      exact ⟨hown, hnew⟩
    have hrun : on_bus_name_changed s (some (name, old_owner, new_owner)) =
        (0, (drop_inhibit s none old_owner true).2) := by
      simp only [on_bus_name_changed, hcond, if_true]
    cases hg : map_get s.lock_map old_owner with
    | none => simp [map_lookup, hg] at hown
    | some r =>
        obtain ⟨i, l⟩ := r
        have h3 := forced_release_by_key s none old_owner i l hwf hg
        rw [hrun]
        exact ⟨rfl, h3.2.1, h3.2.2.2.1, h3.2.2.2.2⟩
  · intro hnot
    have hcond : (map_has_key s.lock_map old_owner && owner_gone new_owner) = false := by
      rw [Bool.eq_false_iff]
      intro hc
      rw [Bool.and_eq_true, hgone, hhas] at hc
      exact hnot hc
    simp only [on_bus_name_changed, hcond]
    rfl

/-- Witness of C5: the client with refcount 5 disappears; one message, Lock gone. -/
theorem C5_disappearance_witness :
    map_lookup (on_bus_name_changed five_refs
        (some (":1.10", ":1.10", some ""))).2.lock_map ":1.10" = none
    ∧ on_bus_name_changed five_refs (some (":1.10", ":1.10", some ":1.10")) = (0, five_refs) :=
  ⟨((C5_disappearance five_refs ":1.10" ":1.10" (some "") (by decide)).1
      ⟨by decide, Or.inr rfl⟩).2.1,
   (C5_disappearance five_refs ":1.10" ":1.10" (some ":1.10") (by decide)).2.1
      (by decide)⟩

/-- C2 (lock idempotence by key): starting from a table without `key`, `n >= 1` calls of
`create_inhibit` with that key (the first allocation succeeding) all return 0 and the same
cookie and leave the old table plus one Lock of refcount `n`.  After `j < n` non-forced
releases by that key the Lock is present with refcount `n - j` and nothing has been
published; the `n`-th release gives back the old table, without a Lock for `key`, and
publishes exactly one message, with `new = false`: over the whole sequence one message with
`new = true` and one with `new = false`. -/
theorem C2_idempotent_by_key (s : iface_t) (key : String) (env : Nat → acquire_env)
    (ck : Nat → Option Int) (n : Nat) (hn : 1 ≤ n)
    (hkey : map_lookup s.lock_map key = none) (hmalloc : (env 0).malloc_ok = true) :
    ∃ c : Int,
      (acquire_n s key env n).1 = List.replicate n (0, c)
      ∧ (acquire_n s key env n).2.lock_map =
          s.lock_map ++ [(key, ⟨c, (n : Int), (env 0).app_name, (env 0).reason⟩)]
      ∧ (∀ j, j < n →
          (release_n (acquire_n s key env n).2 key ck j).1 = List.replicate j 0
          ∧ map_lookup (release_n (acquire_n s key env n).2 key ck j).2.lock_map key =
              some ⟨c, (n : Int) - (j : Int), (env 0).app_name, (env 0).reason⟩
          ∧ (release_n (acquire_n s key env n).2 key ck j).2.published =
              (acquire_n s key env n).2.published)
      ∧ (release_n (acquire_n s key env n).2 key ck n).1 = List.replicate n 0
      ∧ (release_n (acquire_n s key env n).2 key ck n).2.lock_map = s.lock_map
      ∧ map_lookup (release_n (acquire_n s key env n).2 key ck n).2.lock_map key = none
      ∧ ∃ m_on m_off,
          (release_n (acquire_n s key env n).2 key ck n).2.published =
            s.published ++ [m_on, m_off]
          ∧ m_on.new = true ∧ m_off.new = false := by
  have hk : map_get s.lock_map key = none := by
    simpa [map_lookup] using hkey
  obtain ⟨k, rfl⟩ : ∃ k, n = k + 1 := ⟨n - 1, by omega⟩
  refine ⟨(if (env 0).cookie = CLIGHT_COOKIE then (env 0).cookie
           else int_of_long (env 0).rnd), ?_⟩
  rw [acquire_n_state s key env k hk hmalloc]
  refine ⟨rfl, rfl, ?_, ?_⟩
  · intro j hj
    have hlt : (j : Int) < ((k + 1 : Nat) : Int) := by exact_mod_cast hj
    rw [release_n_before_last _ s.lock_map key _ ck rfl hk j hlt]
    refine ⟨rfl, ?_, rfl⟩
    simp [map_lookup, map_get_append_absent s.lock_map key _ hk]
  · rw [release_n_last _ s.lock_map key _ ck rfl hk k rfl]
    refine ⟨rfl, rfl, hkey, ?_⟩
    exact ⟨⟨s.inhibited, true, false, (env 0).app_name, (env 0).reason⟩,
      ⟨s.inhibited, false, decide (key = CLIGHT_INH_KEY), (env 0).app_name, (env 0).reason⟩,
      by simp, rfl, rfl⟩

/-- Witness of C2: three Inhibit calls of one client, then three releases. -/
theorem C2_idempotent_by_key_witness :
    ∃ c : Int,
      (acquire_n two_clients ":1.12" plain_env 3).1 = List.replicate 3 (0, c)
      ∧ (acquire_n two_clients ":1.12" plain_env 3).2.lock_map =
          two_clients.lock_map ++ [(":1.12", ⟨c, 3, "vlc", "video"⟩)] := by
  obtain ⟨c, h1, h2, _⟩ :=
    C2_idempotent_by_key two_clients ":1.12" plain_env (fun _ => none) 3 (by decide)
      (by decide) (by decide)
  exact ⟨c, h1, h2⟩

/-- C1 (cookie-only release), evaluated on the code: clients `:1.10` and `:1.11` hold Locks
with cookies 11 and 22 and refcount 1, client `:1.12` holds none.  UnInhibit(11) from
`:1.12` is answered with success and leaves the Lock of `:1.11` alone, but the Lock of
`:1.10` is still in the table, with refcount 0: `map_remove` is called with the caller's
key, which owns nothing. -/
theorem C1_cookie_release_keeps_lock :
    map_lookup two_clients.lock_map ":1.10" = some ⟨11, 1, "vlc", "video"⟩
    ∧ map_lookup two_clients.lock_map ":1.11" = some ⟨22, 1, "mpv", "film"⟩
    ∧ map_lookup two_clients.lock_map ":1.12" = none
    ∧ (method_uninhibit two_clients ":1.12" (.ok 11)).1 = .ret_void
    ∧ map_lookup (method_uninhibit two_clients ":1.12" (.ok 11)).2.lock_map ":1.11" =
        some ⟨22, 1, "mpv", "film"⟩
    ∧ map_lookup (method_uninhibit two_clients ":1.12" (.ok 11)).2.lock_map ":1.10" =
        some ⟨11, 0, "vlc", "video"⟩
    ∧ map_length (method_uninhibit two_clients ":1.12" (.ok 11)).2.lock_map = 2 := by
  decide

/-- C4 (lock table invariant), evaluated on the code: after an acquire by `:1.10` and a
release by cookie from `:1.11` the table holds a Lock with refcount 0, and after a second
such release a Lock with refcount -1. -/
theorem C4_refcount_zero_and_negative :
    map_lookup (run (init_state false) foreign_release).lock_map ":1.10" =
        some ⟨11, 0, "vlc", "video"⟩
    ∧ map_lookup (run (init_state false)
          (foreign_release ++ [.release (some (int_of_u32 11)) ":1.11" false])).lock_map
        ":1.10" = some ⟨11, -1, "vlc", "video"⟩ := by
  decide

/-- C7 as stated fails: with one Lock outstanding, the acquire of a second client leaves
the system-wide inhibition state as it was (a Lock is outstanding before and after) and
still publishes a message. -/
theorem C7_counterexample :
    one_client = run (init_state false) [.acquire 0 ":1.10" "vlc" "video" true 11]
    ∧ outstanding one_client = true
    ∧ outstanding (step one_client second_acquire) = true
    ∧ (step one_client second_acquire).published =
        one_client.published ++ [⟨false, true, false, "mpv", "film"⟩] := by
  decide

/-- C7 amended: messages are published once per Lock created or removed.  `create_inhibit`
adds an entry to the table exactly when the key owned no Lock and the allocation succeeds,
and publishes one message (`new = true`) exactly then; `drop_inhibit`, when the given key
owns the Lock, removes an entry exactly when the release is forced or the refcount was 1,
and publishes one message (`new = false`) exactly then; no other such call publishes. -/
theorem C7_publish_per_lock (s : iface_t) (cookie : Int) (ck : Option Int)
    (key app_name reason : String) (malloc_ok : Bool) (rnd : Int) (force : Bool) :
    (map_length (create_inhibit s cookie key app_name reason malloc_ok rnd).2.2.lock_map =
        map_length s.lock_map + 1 ↔ (map_lookup s.lock_map key = none ∧ malloc_ok = true))
    ∧ (create_inhibit s cookie key app_name reason malloc_ok rnd).2.2.published =
        s.published ++ (if map_lookup s.lock_map key = none ∧ malloc_ok = true
          then [⟨s.inhibited, true, false, app_name, reason⟩] else [])
    ∧ (∀ i l, map_get s.lock_map key = some (i, l) →
        (map_length (drop_inhibit s ck key force).2.lock_map + 1 = map_length s.lock_map ↔
          (force = true ∨ l.refs = 1))
        ∧ (drop_inhibit s ck key force).2.published =
            s.published ++ (if force = true ∨ l.refs = 1
              then [⟨s.inhibited, false, decide (key = CLIGHT_INH_KEY), l.app, l.reason⟩]
              else [])) := by
  refine ⟨?_, ?_, ?_⟩
  · cases hg : map_get s.lock_map key with
    | some r =>
        obtain ⟨i, l⟩ := r
        rw [create_inhibit_present s cookie key app_name reason malloc_ok rnd i l hg]
        simp [map_lookup, hg, map_length_store]
    | none =>
        cases malloc_ok with
        | true =>
            rw [create_inhibit_absent s cookie key app_name reason rnd hg]
            simp [map_lookup, hg, map_length]
        | false =>
            rw [create_inhibit_nomem s cookie key app_name reason rnd hg]
            simp
  · cases hg : map_get s.lock_map key with
    | some r =>
        obtain ⟨i, l⟩ := r
        rw [create_inhibit_present s cookie key app_name reason malloc_ok rnd i l hg]
        simp [map_lookup, hg]
    | none =>
        cases malloc_ok with
        | true =>
            rw [create_inhibit_absent s cookie key app_name reason rnd hg]
            simp [map_lookup, hg]
        | false =>
            rw [create_inhibit_nomem s cookie key app_name reason rnd hg]
            simp
  · intro i l hg
    by_cases hz : force = true ∨ l.refs = 1
    · rw [drop_inhibit_remove s ck key force i l hg hz]
      simp only [hz, if_true, iff_true, and_true]
      exact map_length_remove s.lock_map key (i, l) hg
    · have hf : force = false := by
        cases force with
        | true => exact absurd (Or.inl rfl) hz
        | false => rfl
      have hr : l.refs ≠ 1 := fun e => hz (Or.inr e)
      subst hf
      rw [drop_inhibit_decrement s ck key i l hg hr]
      simp [hr, map_length_store]

/-- Witness of C7 amended: the first of two releases by the owner of a Lock with refcount 2
publishes nothing and removes nothing. -/
theorem C7_publish_per_lock_witness :
    map_get (acquire_n (init_state false) ":1.10" plain_env 2).2.lock_map ":1.10" =
        some (0, ⟨11, 2, "vlc", "video"⟩)
    ∧ (drop_inhibit (acquire_n (init_state false) ":1.10" plain_env 2).2 none ":1.10"
          false).2.published =
        (acquire_n (init_state false) ":1.10" plain_env 2).2.published ++ [] :=
  ⟨by decide,
   ((C7_publish_per_lock (acquire_n (init_state false) ":1.10" plain_env 2).2 0 none
      ":1.10" "vlc" "video" true 11 false).2.2 0 ⟨11, 2, "vlc", "video"⟩ (by decide)).2⟩

/-- C9 (disappearance watching tracks the table): after every sequence of acquire, release
and NameOwnerChanged operations from the empty table with the watch off, `lock_slot` is
active exactly when the table holds a Lock; the next operation starts the watch exactly
when it is an acquire that takes the table from no Lock to one Lock, and stops it exactly
when it is a release or disappearance that empties the table. -/
theorem C9_watch_tracks_table (b : Bool) (ops : List op_t) (o : op_t) :
    ((run (init_state b) ops).lock_slot = true ↔ (run (init_state b) ops).lock_map ≠ [])
    ∧ (((run (init_state b) ops).lock_slot = false
          ∧ (step (run (init_state b) ops) o).lock_slot = true) ↔
        (o.is_acquire = true ∧ map_length (run (init_state b) ops).lock_map = 0
          ∧ map_length (step (run (init_state b) ops) o).lock_map = 1))
    ∧ (((run (init_state b) ops).lock_slot = true
          ∧ (step (run (init_state b) ops) o).lock_slot = false) ↔
        (o.is_acquire = false ∧ map_length (run (init_state b) ops).lock_map ≠ 0
          ∧ map_length (step (run (init_state b) ops) o).lock_map = 0)) := by
  have h := run_watch_ok (init_state b) ops (init_watch_ok b)
  exact ⟨h, watch_transitions _ o h⟩

/-- C8 (Inhibit/UnInhibit round trip): in a state whose table satisfies the lock invariant
and whose watch is active exactly when the table holds a Lock, if Inhibit(app, reason) from
`sender` succeeds with cookie `c`, then UnInhibit(c) from the same sender succeeds and
leaves the lock table and the watch exactly as they were before the Inhibit. -/
theorem C8_inhibit_uninhibit_round_trip (s s1 : iface_t) (sender app_name reason : String)
    (malloc_ok : Bool) (rnd : Int) (c : Nat)
    (hinv : lock_inv s.lock_map) (hw : watch_ok s)
    (hin : method_inhibit s sender (.ok (app_name, reason)) malloc_ok rnd = (.ret_u c, s1)) :
    (method_uninhibit s1 sender (.ok c)).1 = .ret_void
    ∧ (method_uninhibit s1 sender (.ok c)).2.lock_map = s.lock_map
    ∧ (method_uninhibit s1 sender (.ok c)).2.lock_slot = s.lock_slot := by
  cases hg : map_get s.lock_map sender with
  | some r =>
      obtain ⟨i, l⟩ := r
      have hrefs : 1 ≤ l.refs := hinv.2 (sender, l) (map_get_mem _ _ _ _ hg)
      simp only [method_inhibit,
        create_inhibit_present s 0 sender app_name reason malloc_ok rnd i l hg,
        if_true, Prod.mk.injEq, reply_t.ret_u.injEq] at hin
      obtain ⟨_, hs1⟩ := hin
      subst hs1
      have hg1 : map_get (map_store s.lock_map i { l with refs := l.refs + 1 }) sender =
          some (i, { l with refs := l.refs + 1 }) := by
        rw [map_get_store s.lock_map sender i l _ hg sender]
        simp
      have hne : ({ l with refs := l.refs + 1 } : lock_t).refs ≠ 1 := by
        simp only []
        omega
      simp only [method_uninhibit]
      rw [drop_inhibit_decrement _ _ sender i { l with refs := l.refs + 1 } hg1 hne]
      have hl : (⟨l.cookie, l.refs + 1 - 1, l.app, l.reason⟩ : lock_t) = l := by
        cases l
        simp
      refine ⟨by simp, ?_, by simp⟩
      simp only [if_true, hl]
      exact map_store_store s.lock_map sender i l _ hg
  | none =>
      cases malloc_ok with
      | false =>
          simp [method_inhibit, create_inhibit_nomem s 0 sender app_name reason rnd hg] at hin
      | true =>
          simp only [method_inhibit,
            create_inhibit_absent s 0 sender app_name reason rnd hg,
            if_true, Prod.mk.injEq, reply_t.ret_u.injEq] at hin
          obtain ⟨_, hs1⟩ := hin
          subst hs1
          simp only [method_uninhibit]
          rw [drop_inhibit_remove _ _ sender false (map_length s.lock_map) _
            (map_get_append_absent s.lock_map sender _ hg) (Or.inr rfl)]
          refine ⟨by simp, ?_, ?_⟩
          · simp only [if_true]
            exact map_remove_append_absent s.lock_map sender _ hg
          · simp only [if_true, map_remove_append_absent s.lock_map sender _ hg]
            by_cases hl : map_length s.lock_map = 0
            · simp only [hl, if_true]
              exact ((slot_false_iff s hw).2 hl).symm
            · simp only [hl, if_false]

/-- Witness of C8: a third client calls Inhibit and then UnInhibit with the cookie it got. -/
theorem C8_inhibit_uninhibit_round_trip_witness :
    method_inhibit two_clients ":1.12" (.ok ("mpv", "film")) true 33 =
        (.ret_u 33, (method_inhibit two_clients ":1.12" (.ok ("mpv", "film")) true 33).2)
    ∧ (method_uninhibit (method_inhibit two_clients ":1.12" (.ok ("mpv", "film")) true 33).2
        ":1.12" (.ok 33)).2.lock_map = two_clients.lock_map :=
  ⟨by decide,
   (C8_inhibit_uninhibit_round_trip two_clients
      (method_inhibit two_clients ":1.12" (.ok ("mpv", "film")) true 33).2
      ":1.12" "mpv" "film" true 33 33 (by decide) (by decide) (by decide)).2.1⟩

/-- C11 (INTERFACE subscribes to every topic except requests), evaluated on the code: the
pattern `^[^Req].*` matches the name of every update topic, as claimed, but it also matches
the name `init_topics` registers for every request topic, all of which start with `I`; for
instance `INHIBIT_REQ`, which INTERFACE publishes itself, is registered as
`InterfaceInhibit` and is matched. -/
theorem C11_pattern_matches_requests :
    init_topics .INHIBIT_REQ = some "InterfaceInhibit"
    ∧ topic_t.is_upd .INHIBIT_REQ = false
    ∧ interface_subscribed "InterfaceInhibit" = true
    ∧ all_topics.all (fun t =>
        match init_topics t with
        | some name => interface_subscribed name
        | none => true) = true
    ∧ interface_subscribed "ReqInhibit" = false := by
  decide

/-- C15 (property names match update topic names), evaluated on the code: the topic
`AMBIENT_BR_UPD` is registered as `CurrentAmbientBr`, which is not a property of
`clight_vtable` (the property is called `AmbientBr`); of the thirteen update topics only
six carry the name of a property. -/
theorem C15_topic_name_without_property :
    init_topics .AMBIENT_BR_UPD = some "CurrentAmbientBr"
    ∧ "CurrentAmbientBr" ∉ clight_vtable_properties
    ∧ all_topics.filter (fun t => t.is_upd &&
        match init_topics t with
        | some name => decide (name ∈ clight_vtable_properties)
        | none => false) =
      [.DISPLAY_UPD, .EVENT_UPD, .SUNRISE_UPD, .SUNSET_UPD, .LOCATION_UPD, .UPOWER_UPD]
    ∧ all_topics.filter (fun t => t.is_upd &&
        match init_topics t with
        | some name => decide (name ∉ clight_vtable_properties)
        | none => true) =
      [.AMBIENT_BR_UPD, .CURRENT_BL_UPD, .CURRENT_KBD_BL_UPD, .TIME_UPD, .TEMP_UPD,
       .INHIBIT_UPD, .CURRENT_SCR_BL_UPD] := by
  decide

/-- C16 (topic table is total), evaluated on the code: `BL_REQ`, for which INTERFACE declares
the message `bl_req`, is left NULL by `init_topics`; the topics without a name are exactly
five of the topics INTERFACE declares a message for. -/
theorem C16_topic_without_name :
    .BL_REQ ∈ interface_msgs
    ∧ init_topics .BL_REQ = none
    ∧ topic_inited .BL_REQ = false
    ∧ all_topics.filter (fun t => !topic_inited t) =
        [.BL_REQ, .NO_AUTOCALIB_REQ, .SUNRISE_REQ, .SUNSET_REQ, .SIMULATE_REQ]
    ∧ interface_msgs.filter (fun t => !topic_inited t) =
        [.BL_REQ, .NO_AUTOCALIB_REQ, .SUNRISE_REQ, .SUNSET_REQ, .SIMULATE_REQ] := by
  decide

/-- C12 as stated fails: a curve of 51 points is rejected with `-EINVAL` and nothing is
published, but the state is not what it was: the message kept from the previous call has
been released and the point count of the pending request is now 51. -/
theorem C12_counterexample :
    (set_curve 50 curve_before curve_too_long .ON_AC).1 = -EINVAL
    ∧ (set_curve 50 curve_before curve_too_long .ON_AC).2.published = curve_before.published
    ∧ curve_before.curve_message = some 7
    ∧ (set_curve 50 curve_before curve_too_long .ON_AC).2.curve_message = none
    ∧ curve_before.curve_req.num_points = 2
    ∧ (set_curve 50 curve_before curve_too_long .ON_AC).2.curve_req.num_points = 51 := by
  decide

/-- C12 amended: for every readable curve update with more than `MAX_SIZE_POINTS` points,
`set_curve` returns `-EINVAL`, publishes nothing and leaves the AC state and the points of
the pending request as they were; the point count of the pending request becomes the
rejected count and the message kept from the previous call is released. -/
theorem C12_curve_rejected (MAX_SIZE_POINTS : Nat) (s : curve_state) (value : array_msg)
    (userdata : ac_states) (hr : 0 ≤ value.r) (hlen : MAX_SIZE_POINTS < value.data.length) :
    (set_curve MAX_SIZE_POINTS s value userdata).1 = -EINVAL
    ∧ (set_curve MAX_SIZE_POINTS s value userdata).2.published = s.published
    ∧ (set_curve MAX_SIZE_POINTS s value userdata).2.curve_req.state = s.curve_req.state
    ∧ (set_curve MAX_SIZE_POINTS s value userdata).2.curve_req.regression_points =
        s.curve_req.regression_points
    ∧ (set_curve MAX_SIZE_POINTS s value userdata).2.curve_req.num_points =
        (value.data.length : Int)
    ∧ (set_curve MAX_SIZE_POINTS s value userdata).2.curve_message = none := by
  have h1 : ¬ value.r < 0 := by omega
  have h2 : sizeof_double * value.data.length / sizeof_double = value.data.length := by
    simp [sizeof_double]
  have h3 : ((value.data.length : Nat) : Int) > (MAX_SIZE_POINTS : Int) := by
    exact_mod_cast hlen
  simp only [set_curve, h1, if_false, h2, h3, if_true]
  simp

/-- Witness of C12 amended: the 51-point curve against a limit of 50. -/
theorem C12_curve_rejected_witness :
    (set_curve 50 curve_before curve_too_long .ON_AC).1 = -EINVAL
    ∧ (set_curve 50 curve_before curve_too_long .ON_AC).2.curve_req.state = .ON_AC :=
  ⟨(C12_curve_rejected 50 curve_before curve_too_long .ON_AC (by decide) (by decide)).1,
   (C12_curve_rejected 50 curve_before curve_too_long .ON_AC (by decide) (by decide)).2.2.1⟩

/-- C13 (out-of-range backlight change): for a readable argument, `method_clight_changebl`
answers `-EINVAL` with the state untouched (nothing published, pending request unchanged)
exactly when the change is not a number strictly between 0 and 1; for every change strictly
between 0 and 1 it replies successfully and publishes exactly one request. -/
theorem C13_changebl_range (s : bl_state) (member : String) (change_pct : dbl) :
    (method_clight_changebl s member (.ok change_pct) = (.error EINVAL, s)
      ↔ ¬ ∃ q, change_pct = .fin q ∧ 0 < q ∧ q < 1)
    ∧ ((∃ q, change_pct = .fin q ∧ 0 < q ∧ q < 1) →
        (method_clight_changebl s member (.ok change_pct)).1 = .ret_void
        ∧ (method_clight_changebl s member (.ok change_pct)).2.published =
            s.published ++ [(method_clight_changebl s member (.ok change_pct)).2.bl_req]) := by
  by_cases hb : (dbl.lt (.fin 0) change_pct && dbl.lt change_pct (.fin 1)) = true
  · have hq := (dbl_between change_pct).1 hb
    refine ⟨?_, fun _ => ?_⟩
    · simp only [method_clight_changebl, hb, if_true]
      constructor
      · intro h
        simp at h
      · intro h
        exact absurd hq h
    · simp only [method_clight_changebl, hb, if_true]
      simp
  · have hq : ¬ ∃ q, change_pct = .fin q ∧ 0 < q ∧ q < 1 := fun h =>
      hb ((dbl_between change_pct).2 h)
    refine ⟨?_, fun h => absurd h hq⟩
    simp only [method_clight_changebl, hb]
    simp [hq]

/-- Witness of C13: IncBl(1/4) at one half is accepted and published. -/
theorem C13_changebl_range_witness :
    (method_clight_changebl bl_half "IncBl" (.ok (.fin (1 / 4)))).1 = .ret_void
    ∧ (method_clight_changebl bl_half "IncBl" (.ok (.fin (1 / 4)))).2.published =
        bl_half.published
          ++ [(method_clight_changebl bl_half "IncBl" (.ok (.fin (1 / 4)))).2.bl_req] :=
  (C13_changebl_range bl_half "IncBl" (.fin (1 / 4))).2 ⟨1 / 4, rfl, by norm_num, by norm_num⟩

/-- C17 (LOCATION init reports failure instead of a descriptor): provided the descriptor of
a timer is never the sentinel, `init` hands `DONT_POLL_W_ERR` to `init_module` exactly when
`geoclue_init` fails, and then starts no timer; when `geoclue_init` succeeds it hands over
what `start_timer(CLOCK_MONOTONIC, 3, 0)` returned. -/
theorem C17_location_init (DONT_POLL_W_ERR : Int) (env : geoclue_env) (quit timer_fd : Int)
    (hfd : timer_fd ≠ DONT_POLL_W_ERR) :
    ((location_init DONT_POLL_W_ERR env quit timer_fd).fd_arg = DONT_POLL_W_ERR
      ↔ (geoclue_init env quit).1 ≠ 0)
    ∧ ((geoclue_init env quit).1 ≠ 0 →
        (location_init DONT_POLL_W_ERR env quit timer_fd).timer = none)
    ∧ ((geoclue_init env quit).1 = 0 →
        (location_init DONT_POLL_W_ERR env quit timer_fd).fd_arg = timer_fd
        ∧ (location_init DONT_POLL_W_ERR env quit timer_fd).timer =
            some { clock := .CLOCK_MONOTONIC, sec := 3, nsec := 0 }) := by
  by_cases hr : (geoclue_init env quit).1 = 0
  · simp [location_init, hr, hfd]
  · simp [location_init, hr]

/-- Witness of C17: with GeoClue absent the sentinel -3 is handed over and no timer runs. -/
theorem C17_location_init_witness :
    (location_init (-3) geoclue_down 0 5).fd_arg = -3
    ∧ (location_init (-3) geoclue_down 0 5).timer = none
    ∧ (location_init (-3) geoclue_up 0 5).fd_arg = 5 :=
  ⟨((C17_location_init (-3) geoclue_down 0 5 (by decide)).1).2 (by decide),
   (C17_location_init (-3) geoclue_down 0 5 (by decide)).2.1 (by decide),
   ((C17_location_init (-3) geoclue_up 0 5 (by decide)).2.2 (by decide)).1⟩

/-- C18 (LOCATION check reclassifies the dependency of GAMMA): when both event strings are
non-empty or both coordinates are non-zero, `check` returns 1 and every edge of GAMMA to
LOCATION is SOFT afterwards, every other edge of GAMMA and the edges of every other module
being what they were; in every other case `check` changes no dependency and returns
`single_capture_mode || no_gamma`. -/
theorem C18_location_check (c : location_conf) (g : dep_graph) :
    (((c.sunrise ≠ "" ∧ c.sunset ≠ "") ∨ (c.lat ≠ .fin 0 ∧ c.lon ≠ .fin 0)) →
      (location_check c g).1 = 1
      ∧ (∀ d ∈ (location_check c g).2 .GAMMA, d.dep = .LOCATION → d.type = .SOFT)
      ∧ (location_check c g).2 .GAMMA =
          (g .GAMMA).map (fun d => if d.dep = .LOCATION then ⟨.SOFT, d.dep⟩ else d)
      ∧ (∀ m, m ≠ .GAMMA → (location_check c g).2 m = g m))
    ∧ (¬ ((c.sunrise ≠ "" ∧ c.sunset ≠ "") ∨ (c.lat ≠ .fin 0 ∧ c.lon ≠ .fin 0)) →
      (location_check c g).2 = g
      ∧ (location_check c g).1 =
          (if c.single_capture_mode ≠ 0 ∨ c.no_gamma ≠ 0 then 1 else 0)) := by
  constructor
  · intro h
    have hk := (location_known_iff c).2 h
    simp only [location_check, hk, if_true]
    refine ⟨trivial, ?_, ?_, ?_⟩
    · intro d hd hdep
      simp only [change_dep_type, if_true, List.mem_map] at hd
      obtain ⟨d0, _, hd0⟩ := hd
      by_cases h0 : d0.dep = .LOCATION
      · simp only [h0, if_true] at hd0
        rw [← hd0]
      · simp only [h0, if_false] at hd0
        rw [← hd0] at hdep
        exact absurd hdep h0
    · simp [change_dep_type]
    · intro m hm
      simp [change_dep_type, hm]
  · intro h
    have hk : location_known c = false := by
      rw [Bool.eq_false_iff]
      exact fun hk => h ((location_known_iff c).1 hk)
    simp only [location_check, hk]
    simp

/-- Witness of C18: with coordinates given the edge of GAMMA to LOCATION becomes SOFT and
its edge to BUS stays HARD; without them and with GAMMA disabled nothing changes. -/
theorem C18_location_check_witness :
    (location_check conf_with_coords sample_deps).1 = 1
    ∧ (location_check conf_with_coords sample_deps).2 .GAMMA =
        [⟨.SOFT, .LOCATION⟩, ⟨.HARD, .BUS⟩]
    ∧ (location_check conf_no_gamma sample_deps).1 = 1
    ∧ (location_check conf_no_gamma sample_deps).2 = sample_deps :=
  ⟨((C18_location_check conf_with_coords sample_deps).1 (Or.inr ⟨by decide, by decide⟩)).1,
   ((C18_location_check conf_with_coords sample_deps).1
      (Or.inr ⟨by decide, by decide⟩)).2.2.1,
   ((C18_location_check conf_no_gamma sample_deps).2 (by decide)).2,
   ((C18_location_check conf_no_gamma sample_deps).2 (by decide)).1⟩

/-- C20 (force flag of the release message): whenever `drop_inhibit` publishes a message,
its force flag is true exactly when the key passed is `LockClight`, whatever the `force`
argument; so the message published by `on_bus_name_changed` for the disappearance of any
other key has `force = false`. -/
theorem C20_release_force_flag (s : iface_t) (cookie : Option Int) (key : String)
    (force : Bool) (msg : inhibit_upd) :
    ((drop_inhibit s cookie key force).2.published = s.published ++ [msg] →
      (msg.force = true ↔ key = CLIGHT_INH_KEY))
    ∧ (∀ name new_owner, key ≠ CLIGHT_INH_KEY →
        (on_bus_name_changed s (some (name, key, new_owner))).2.published
          = s.published ++ [msg] → msg.force = false) := by
  have main : ∀ (ck : Option Int) (f : Bool),
      (drop_inhibit s ck key f).2.published = s.published ++ [msg] →
      msg.force = decide (key = CLIGHT_INH_KEY) := by
    intro ck f h
    rcases drop_inhibit_published s ck key f with h0 | ⟨l, h1⟩
    · rw [h0] at h
      have := congrArg List.length h
      simp at this
    · rw [h1] at h
      have h2 := List.append_cancel_left h
      simp only [List.cons.injEq, and_true] at h2
      rw [← h2]
  constructor
  · intro h
    rw [main cookie force h]
    simp
  · intro name new_owner hne h
    by_cases hc : (map_has_key s.lock_map key && owner_gone new_owner) = true
    · simp only [on_bus_name_changed, hc, if_true] at h
      rw [main none true h]
      simp [hne]
    · simp only [on_bus_name_changed, hc] at h
      have := congrArg List.length h
      simp at this

/-- Witness of C20: the forced release of a client's Lock is published with `force = false`. -/
theorem C20_release_force_flag_witness :
    ((⟨false, false, false, "vlc", "video"⟩ : inhibit_upd).force = true
      ↔ ":1.10" = CLIGHT_INH_KEY) :=
  (C20_release_force_flag five_refs none ":1.10" true ⟨false, false, false, "vlc", "video"⟩).1
    (by decide)

/-- C19 (an unsatisfied HARD dependency blocks initialisation), on the lifecycle rules of
the spec: an event moves a module to `INITIALIZING` only when every HARD edge of the module
points to a RUNNING module; along every sequence of events on which a module that has not
been initialised keeps a HARD edge to a module that never is RUNNING, the module is never
`INITIALIZING` nor `RUNNING`; in particular, with the dependency `{HARD, BUS}` that
location.c declares, LOCATION is never `INITIALIZING` nor `RUNNING` along any sequence of
events on which no `init` of BUS succeeds and no check reclassifies the edges of LOCATION. -/
theorem C19_hard_dependency (g0 : mgr_t) (evs : List mgr_event) :
    (∀ m ev, g0.state m ≠ .INITIALIZING → (mgr_step g0 ev).state m = .INITIALIZING →
      ∀ d ∈ g0.deps m, d.type = .HARD → g0.state d.dep = .RUNNING)
    ∧ (∀ m t, (g0.state m).pre_init = true →
        (∀ g ∈ mgr_trace g0 evs,
          (⟨.HARD, t⟩ : dependency) ∈ g.deps m ∧ g.state t ≠ .RUNNING) →
        ∀ g ∈ mgr_trace g0 evs, g.state m ≠ .INITIALIZING ∧ g.state m ≠ .RUNNING)
    ∧ (g0.deps .LOCATION = location_dependencies →
        (g0.state .LOCATION).pre_init = true → g0.state .BUS ≠ .RUNNING →
        (∀ ev ∈ evs, ev ≠ .init_end .BUS true ∧ ev.reclassifies .LOCATION = false) →
        ∀ g ∈ mgr_trace g0 evs,
          g.state .LOCATION ≠ .INITIALIZING ∧ g.state .LOCATION ≠ .RUNNING) := by
  refine ⟨?_, ?_, ?_⟩
  · intro m ev hne hinit d hd hhard
    have hd2 : (⟨.HARD, d.dep⟩ : dependency) ∈ g0.deps m := by
      have : (⟨.HARD, d.dep⟩ : dependency) = d := by
        cases d
        simp at hhard ⊢
        exact hhard.symm
      rw [this]
      exact hd
    rcases mgr_step_state g0 ev m with h1 | ⟨_, h1⟩ | h1 | ⟨_, hs, _⟩ | ⟨_, _, h1⟩ | ⟨_, h1⟩
      | ⟨_, h1⟩ | h1
    · rw [h1] at hinit; exact absurd hinit hne
    · rw [h1] at hinit; exact absurd hinit (by decide)
    · rw [h1] at hinit; exact absurd hinit (by decide)
    · exact is_satisfied_hard g0 m d.dep hs hd2
    · rw [h1] at hinit; exact absurd hinit (by decide)
    · rw [h1] at hinit; exact absurd hinit (by decide)
    · rw [h1] at hinit; exact absurd hinit (by decide)
    · rw [h1] at hinit; exact absurd hinit (by decide)
  · intro m t hp h g hg
    exact pre_init_not_started _ (mgr_trace_pre_init g0 evs m t hp h g hg)
  · intro hdeps hp hbus hev g hg
    have hframe := mgr_trace_frame g0 evs .LOCATION .BUS hbus hev
    have hedge : ∀ g1 ∈ mgr_trace g0 evs,
        (⟨.HARD, .BUS⟩ : dependency) ∈ g1.deps .LOCATION ∧ g1.state .BUS ≠ .RUNNING := by
      intro g1 hg1
      have := hframe g1 hg1
      rw [this.1, hdeps]
      exact ⟨by simp [location_dependencies], this.2⟩
    exact pre_init_not_started _ (mgr_trace_pre_init g0 evs .LOCATION .BUS hp hedge g hg)

/-- Witness of C19: BUS fails its `init`; LOCATION, asked to initialise afterwards, stays
out of `INITIALIZING` and `RUNNING` in every state of the run. -/
theorem C19_hard_dependency_witness :
    ∀ g ∈ mgr_trace all_registered bus_fails,
      g.state .LOCATION ≠ .INITIALIZING ∧ g.state .LOCATION ≠ .RUNNING :=
  (C19_hard_dependency all_registered bus_fails).2.2 rfl rfl (by decide) (by decide)

/-- C21 (the ScreenSaver name is optional): when every object registration and the request
of the primary bus name succeed and inhibition is enabled, `init` does not call
`m_poisonpill` and creates the lock table, whatever the request of the
org.freedesktop.ScreenSaver name and the fallback monitor return; the monitor is tried
exactly when that name could not be acquired. -/
theorem C21_screensaver_name_optional (e : init_env)
    (hreg : ∀ x ∈ init_registrations e, 0 ≤ x) (hname : 0 ≤ e.r_name)
    (hinh : e.inh_disabled = false) :
    (interface_init e).poisoned = false
    ∧ (interface_init e).lock_map_created = true
    ∧ ((interface_init e).monitor_called = true ↔ e.r_sc_name < 0) := by
  have hsum : 0 ≤ init_register e := by
    rw [init_register_sum]
    exact List.sum_nonneg hreg
  have h1 : ¬ init_register e < 0 := by omega
  have h2 : ¬ e.r_name < 0 := by omega
  simp [interface_init, h1, h2, hinh]

/-- Witness of C21: the ScreenSaver name is taken and the monitor cannot be started. -/
theorem C21_screensaver_name_optional_witness :
    (interface_init { init_all_ok with r_sc_name := -16, r_monitor := -1 }).poisoned = false
    ∧ (interface_init { init_all_ok with r_sc_name := -16, r_monitor := -1 }).lock_map_created
        = true :=
  ⟨(C21_screensaver_name_optional { init_all_ok with r_sc_name := -16, r_monitor := -1 }
      (by decide) (by decide) rfl).1,
   (C21_screensaver_name_optional { init_all_ok with r_sc_name := -16, r_monitor := -1 }
      (by decide) (by decide) rfl).2.1⟩

/-- C22 (a GeoClue failure never quits the daemon): `geoclue_init` returns -1 exactly when the
first step, or the second step after a clean first one, or the third step after two clean
ones leaves `state.quit` set, and 0 otherwise; the steps after the first one that leaves
`state.quit` set are not run; `state.quit` is 0 on return in every case. -/
theorem C22_geoclue_init (env : geoclue_env) (quit : Int) :
    ((geoclue_init env quit).1 = -1 ↔
      (env.get_client quit ≠ 0
        ∨ (env.get_client quit = 0 ∧ env.hook_update (env.get_client quit) ≠ 0)
        ∨ (env.get_client quit = 0 ∧ env.hook_update (env.get_client quit) = 0
            ∧ env.client_start (env.hook_update (env.get_client quit)) ≠ 0)))
    ∧ ((geoclue_init env quit).1 = -1 ∨ (geoclue_init env quit).1 = 0)
    ∧ (geoclue_init env quit).2.1 = 0
    ∧ (env.get_client quit ≠ 0 → (geoclue_init env quit).2.2 = [.get_client])
    ∧ (env.get_client quit = 0 → env.hook_update (env.get_client quit) ≠ 0 →
        (geoclue_init env quit).2.2 = [.get_client, .hook_update])
    ∧ (env.get_client quit = 0 → env.hook_update (env.get_client quit) = 0 →
        (geoclue_init env quit).2.2 = [.get_client, .hook_update, .client_start]) := by
  simp only [geoclue_init, geoclue_steps]
  generalize env.get_client quit = q1
  generalize env.hook_update q1 = q2
  generalize env.client_start q2 = q3
  by_cases h1 : q1 = 0 <;> by_cases h2 : q2 = 0 <;> by_cases h3 : q3 = 0 <;>
    simp [h1, h2, h3]

/-- Witness of C22: with GeoClue absent only the first step runs and the result is -1. -/
theorem C22_geoclue_init_witness :
    (geoclue_init geoclue_down 0).2.2 = [.get_client]
    ∧ (geoclue_init geoclue_down 0).1 = -1 :=
  ⟨(C22_geoclue_init geoclue_down 0).2.2.2.1 (by decide),
   (C22_geoclue_init geoclue_down 0).1.2 (Or.inl (by decide))⟩

/-- C23 (Clightd version gate): when the version property is read, is not empty and holds a
dot, `check_clightd` returns, and it returns 0 when (`atoi` of the version, `atoi` of the
text after the first dot), the two `int` values the code parses, is lexicographically at
least the minimum version and -1 when it is not; when the version cannot be read or is
empty it returns -1; all this whatever the introspection yields. -/
theorem C23_version_gate (MINIMUM_CLIGHTD_VERSION_MAJ MINIMUM_CLIGHTD_VERSION_MIN : Int)
    (conf : clightd_conf) (e : clightd_env) :
    ((0 ≤ e.r_version ∧ e.version ≠ "" ∧ '.' ∈ e.version.data) →
      ∃ minor, after_dot e.version.data = some minor
        ∧ (version_ge (atoi e.version.data) (atoi minor)
              MINIMUM_CLIGHTD_VERSION_MAJ MINIMUM_CLIGHTD_VERSION_MIN →
            check_clightd MINIMUM_CLIGHTD_VERSION_MAJ MINIMUM_CLIGHTD_VERSION_MIN conf e =
              some (0, clightd_features conf e))
        ∧ (¬ version_ge (atoi e.version.data) (atoi minor)
              MINIMUM_CLIGHTD_VERSION_MAJ MINIMUM_CLIGHTD_VERSION_MIN →
            check_clightd MINIMUM_CLIGHTD_VERSION_MAJ MINIMUM_CLIGHTD_VERSION_MIN conf e =
              some (-1, clightd_features conf e)))
    ∧ ((e.r_version < 0 ∨ e.version = "") →
      check_clightd MINIMUM_CLIGHTD_VERSION_MAJ MINIMUM_CLIGHTD_VERSION_MIN conf e =
        some (-1, clightd_features conf e)) := by
  constructor
  · rintro ⟨hr, hne, hdot⟩
    obtain ⟨minor, hm⟩ := after_dot_some e.version.data hdot
    have hlen : ¬ e.version.length = 0 := fun h => hne ((string_length_zero _).1 h)
    have hcond : ¬ (e.r_version < 0 ∨ e.version.length = 0) := by
      rintro (h | h)
      · omega
      · exact hlen h
    refine ⟨minor, hm, ?_, ?_⟩
    · intro hge
      have hlt : ¬ (atoi e.version.data < MINIMUM_CLIGHTD_VERSION_MAJ
          ∨ (atoi e.version.data = MINIMUM_CLIGHTD_VERSION_MAJ
              ∧ atoi minor < MINIMUM_CLIGHTD_VERSION_MIN)) := by
        unfold version_ge at hge
        omega
      simp only [check_clightd, hcond, if_false, hm, hlt]
    · intro hge
      have hlt : (atoi e.version.data < MINIMUM_CLIGHTD_VERSION_MAJ
          ∨ (atoi e.version.data = MINIMUM_CLIGHTD_VERSION_MAJ
              ∧ atoi minor < MINIMUM_CLIGHTD_VERSION_MIN)) := by
        unfold version_ge at hge
        omega
      simp only [check_clightd, hcond, if_false, hm, hlt, if_true]
  · intro h
    have hcond : e.r_version < 0 ∨ e.version.length = 0 := by
      rcases h with h | h
      · exact Or.inl h
      · exact Or.inr ((string_length_zero _).2 h)
    simp only [check_clightd, hcond, if_true]

/-- Witness of C23: version 4.1 passes a minimum of 4.0 and fails a minimum of 4.2; an
unreadable version is refused; the major number of version 4294967296.0 is stored as 0,
so that version fails a minimum of 4.0. -/
theorem C23_version_gate_witness :
    check_clightd 4 0 conf_all_on clightd_4_1 =
        some (0, clightd_features conf_all_on clightd_4_1)
    ∧ check_clightd 4 2 conf_all_on clightd_4_1 =
        some (-1, clightd_features conf_all_on clightd_4_1)
    ∧ check_clightd 4 0 conf_all_on { clightd_4_1 with r_version := -2 } =
        some (-1, clightd_features conf_all_on { clightd_4_1 with r_version := -2 })
    ∧ atoi "4294967296.0".data = 0
    ∧ check_clightd 4 0 conf_all_on { clightd_4_1 with version := "4294967296.0" } =
        some (-1, clightd_features conf_all_on
          { clightd_4_1 with version := "4294967296.0" }) := by
  have hdot : after_dot clightd_4_1.version.data = some ['1'] := by decide
  have hdot3 :
      after_dot ({ clightd_4_1 with version := "4294967296.0" } : clightd_env).version.data =
        some ['0'] := by decide
  obtain ⟨minor3, hm3, _, hlt3⟩ :=
    (C23_version_gate 4 0 conf_all_on { clightd_4_1 with version := "4294967296.0" }).1
      ⟨by decide, by decide, by decide⟩
  have e3 : minor3 = ['0'] := by
    rw [hdot3] at hm3
    exact (Option.some.inj hm3).symm
  subst e3
  obtain ⟨minor, hm, hge, _⟩ :=
    (C23_version_gate 4 0 conf_all_on clightd_4_1).1 ⟨by decide, by decide, by decide⟩
  obtain ⟨minor2, hm2, _, hlt⟩ :=
    (C23_version_gate 4 2 conf_all_on clightd_4_1).1 ⟨by decide, by decide, by decide⟩
  have e1 : minor = ['1'] := by
    rw [hdot] at hm
    exact (Option.some.inj hm).symm
  have e2 : minor2 = ['1'] := by
    rw [hdot] at hm2
    exact (Option.some.inj hm2).symm
  subst e1; subst e2
  exact ⟨hge (by unfold version_ge; decide), hlt (by unfold version_ge; decide),
    (C23_version_gate 4 0 conf_all_on { clightd_4_1 with r_version := -2 }).2
      (Or.inl (by decide)), by decide, hlt3 (by unfold version_ge; decide)⟩

/-- C24 (monitored ScreenSaver traffic), evaluated on the code: for a method call that names
a member and carries no interface field, `sd_bus_message_get_interface` returns NULL and
`inhibit_parse_msg`, which tests only the member, hands that NULL to `strcmp`: the call has
no defined result, whether the member is `Inhibit` with signature `ss` or a member the
ScreenSaver interface does not have.  The same two messages with the interface field set
are handled: the first acquires a Lock for the sender, the second changes nothing. -/
theorem C24_member_without_interface :
    inhibit_parse_msg one_client
        { member := some "Inhibit", signature := "ss", interface := none,
          sender := ":1.11", args_ss := .ok ("mpv", "film") } true 7 = none
    ∧ inhibit_parse_msg one_client
        { member := some "GetActive", signature := "", interface := none,
          sender := ":1.11", args_ss := .error (-6) } true 7 = none
    ∧ inhibit_parse_msg one_client
        { member := some "Inhibit", signature := "ss", interface := some sc_interface,
          sender := ":1.11", args_ss := .ok ("mpv", "film") } true 7 =
        some (create_inhibit one_client 0 ":1.11" "mpv" "film" true 7).2.2
    ∧ inhibit_parse_msg one_client
        { member := some "GetActive", signature := "", interface := some sc_interface,
          sender := ":1.11", args_ss := .error (-6) } true 7 = some one_client := by
  refine ⟨rfl, rfl, ?_, ?_⟩
  · decide
  · decide

/-- C25 (timeout requests carry the right target), evaluated on the code: writing the DPMS
BattTimeout property publishes the DPMS request with the state it had before (`ON_AC` after
start-up) and sets the state of the dimmer request to `ON_BATTERY`: that branch assigns
`dimmer_to_req.to.state` instead of `dpms_to_req.to.state`.  The other eleven properties
publish the request of their module with the state and time of day they name. -/
theorem C25_dpms_batt_timeout :
    (set_timeouts to_zero (.dpms .ON_BATTERY) thirty).map (fun r => r.2.published) =
        some [(.dpms_to_req, ⟨30, .ON_AC, .DAY⟩)]
    ∧ to_zero.dimmer_to_req.state = .ON_AC
    ∧ (set_timeouts to_zero (.dpms .ON_BATTERY) thirty).map (fun r => r.2.dimmer_to_req.state) =
        some .ON_BATTERY
    ∧ all_timeout_props.filter (fun p => !timeout_published_right to_zero p thirty) =
        [.dpms .ON_BATTERY]
    ∧ all_timeout_props.length = 12 := by
  decide

/-- C26 (key lookup takes precedence over the cookie): when the key passed to `drop_inhibit`
owns a Lock, the call does exactly what it does without a cookie, whatever cookie is given;
it removes that Lock when forced or at refcount 1 and otherwise lowers its refcount by one;
the Lock of every other key, the owner of the given cookie included, is unchanged. -/
theorem C26_key_before_cookie (s : iface_t) (cookie : Option Int) (key : String)
    (force : Bool) (i : Nat) (l : lock_t) (h : map_get s.lock_map key = some (i, l)) :
    drop_inhibit s cookie key force = drop_inhibit s none key force
    ∧ (∀ k, k ≠ key →
        map_lookup (drop_inhibit s cookie key force).2.lock_map k = map_lookup s.lock_map k)
    ∧ ((force = true ∨ l.refs = 1) →
        (drop_inhibit s cookie key force).2.lock_map = map_remove s.lock_map key)
    ∧ (¬ (force = true ∨ l.refs = 1) →
        map_lookup (drop_inhibit s cookie key force).2.lock_map key =
          some { l with refs := l.refs - 1 }) := by
  by_cases hz : force = true ∨ l.refs = 1
  · rw [drop_inhibit_remove s cookie key force i l h hz,
      drop_inhibit_remove s none key force i l h hz]
    refine ⟨rfl, ?_, fun _ => rfl, fun hn => absurd hz hn⟩
    intro k hk
    exact map_lookup_remove_ne s.lock_map key k hk
  · have hf : force = false := by
      cases force with
      | true => exact absurd (Or.inl rfl) hz
      | false => rfl
    have hr : l.refs ≠ 1 := fun e => hz (Or.inr e)
    subst hf
    rw [drop_inhibit_decrement s cookie key i l h hr,
      drop_inhibit_decrement s none key i l h hr]
    refine ⟨rfl, ?_, fun hy => absurd hy hz, fun _ => ?_⟩
    · intro k hk
      simp only [map_lookup]
      rw [map_get_store s.lock_map key i l _ h k]
      simp [hk]
    · simp only [map_lookup]
      rw [map_get_store s.lock_map key i l _ h key]
      simp

/-- Witness of C26: client `:1.10` releases with the cookie of `:1.11`; its own Lock goes,
the Lock of `:1.11` stays. -/
theorem C26_key_before_cookie_witness :
    drop_inhibit two_clients (some 22) ":1.10" false = drop_inhibit two_clients none ":1.10" false
    ∧ map_lookup (drop_inhibit two_clients (some 22) ":1.10" false).2.lock_map ":1.11" =
        map_lookup two_clients.lock_map ":1.11" :=
  ⟨(C26_key_before_cookie two_clients (some 22) ":1.10" false 0 ⟨11, 1, "vlc", "video"⟩
      (by decide)).1,
   (C26_key_before_cookie two_clients (some 22) ":1.10" false 0 ⟨11, 1, "vlc", "video"⟩
      (by decide)).2.1 ":1.11" (by decide)⟩

/-- C27 as stated fails: the daemon holds its Lock (key `LockClight`, cookie -1, refcount 1);
client `:1.12`, which owns no Lock, calls UnInhibit(4294967295); read into an `int` the
cookie is -1, the scan finds the Lock of the daemon, its refcount drops to 0 and a release
message for it is published. -/
theorem C27_counterexample :
    map_lookup daemon_inhibited.lock_map CLIGHT_INH_KEY =
        some ⟨CLIGHT_COOKIE, 1, "Clight", "user requested"⟩
    ∧ ":1.12" ≠ CLIGHT_INH_KEY
    ∧ int_of_u32 4294967295 = CLIGHT_COOKIE
    ∧ map_lookup (method_uninhibit daemon_inhibited ":1.12" (.ok 4294967295)).2.lock_map
        CLIGHT_INH_KEY = some ⟨CLIGHT_COOKIE, 0, "Clight", "user requested"⟩
    ∧ (method_uninhibit daemon_inhibited ":1.12" (.ok 4294967295)).2.published =
        daemon_inhibited.published ++ [⟨false, false, false, "Clight", "user requested"⟩] := by
  decide

/-- C27 amended: for every 32-bit cookie value other than 4294967295 received by UnInhibit
from a sender whose key is not `LockClight`, the Lock held under `LockClight` with cookie
`CLIGHT_COOKIE` is not the Lock the release works on, so no message is published for it,
and it is in the table afterwards with the refcount it had. -/
theorem C27_daemon_lock_other_cookies (s : iface_t) (sender : String) (u i : Nat) (l : lock_t)
    (hs : sender ≠ CLIGHT_INH_KEY) (hu : u < 4294967296) (hne : u ≠ 4294967295)
    (hg : map_get s.lock_map CLIGHT_INH_KEY = some (i, l)) (hc : l.cookie = CLIGHT_COOKIE) :
    map_lookup (method_uninhibit s sender (.ok u)).2.lock_map CLIGHT_INH_KEY = some l
    ∧ (∀ j l1, drop_inhibit_lookup s (some (int_of_u32 u)) sender = some (j, l1) → j ≠ i) := by
  have hcookie := int_of_u32_ne_cookie u hu hne
  have hother : ∀ j l1, drop_inhibit_lookup s (some (int_of_u32 u)) sender = some (j, l1) →
      j ≠ i := by
    intro j l1 hf hji
    obtain ⟨k, hk, hor⟩ := drop_inhibit_lookup_getElem s _ sender j l1 hf
    have hi := map_get_getElem _ _ _ _ hg
    rw [hji, hi] at hk
    simp only [Option.some.injEq, Prod.mk.injEq] at hk
    rcases hor with hkey | ⟨c, hcs, hcl⟩
    · exact hs (hkey.symm.trans hk.1.symm)
    · simp only [Option.some.injEq] at hcs
      rw [← hk.2, hc] at hcl
      exact hcookie (hcs.trans hcl.symm)
  refine ⟨?_, hother⟩
  have hstate : (method_uninhibit s sender (.ok u)).2 =
      (drop_inhibit s (some (int_of_u32 u)) sender false).2 := by
    simp only [method_uninhibit]
    split_ifs <;> rfl
  rw [hstate]
  have hsne : CLIGHT_INH_KEY ≠ sender := fun e => hs e.symm
  cases hf : drop_inhibit_lookup s (some (int_of_u32 u)) sender with
  | none =>
      rw [drop_inhibit_lookup_none s _ sender false hf]
      simp [map_lookup, hg]
  | some r =>
      obtain ⟨j, l1⟩ := r
      have hji := hother j l1 hf
      have hst := map_get_store_other s.lock_map CLIGHT_INH_KEY i j l
        { l1 with refs := if false = true then 0 else l1.refs - 1 } hg hji
      rcases drop_inhibit_lock_map s (some (int_of_u32 u)) sender false j l1 hf with h1 | h1
      · rw [h1]
        simp only [map_lookup]
        rw [hst]
        rfl
      · rw [h1, map_lookup_remove_ne _ sender CLIGHT_INH_KEY hsne]
        simp only [map_lookup]
        rw [hst]
        rfl

/-- Witness of C27 amended: UnInhibit(7) from `:1.12` leaves the Lock of the daemon alone. -/
theorem C27_daemon_lock_other_cookies_witness :
    map_lookup (method_uninhibit daemon_inhibited ":1.12" (.ok 7)).2.lock_map CLIGHT_INH_KEY =
      some ⟨CLIGHT_COOKIE, 1, "Clight", "user requested"⟩ :=
  (C27_daemon_lock_other_cookies daemon_inhibited ":1.12" 7 0
    ⟨CLIGHT_COOKIE, 1, "Clight", "user requested"⟩ (by decide) (by decide) (by decide)
    (by decide) rfl).1

/-- C28 (the backlight change is clamped): with the current level a rational `q` in [0, 1]
and an accepted change `c`, 0 < c < 1, IncBl publishes one request whose level is
`min 1 (q + c)` and DecBl one whose level is `max 0 (q - c)`; both lie in [0, 1]. -/
theorem C28_changebl_clamped (s : bl_state) (q c : Rat) (hcur : s.current_bl_pct = .fin q)
    (hq0 : 0 ≤ q) (hq1 : q ≤ 1) (hc0 : 0 < c) (hc1 : c < 1) :
    (method_clight_changebl s "IncBl" (.ok (.fin c))).2.published =
        s.published ++ [{ s.bl_req with smooth := -1, new := .fin (min 1 (q + c)) }]
    ∧ (method_clight_changebl s "DecBl" (.ok (.fin c))).2.published =
        s.published ++ [{ s.bl_req with smooth := -1, new := .fin (max 0 (q - c)) }]
    ∧ 0 ≤ min 1 (q + c) ∧ min 1 (q + c) ≤ 1
    ∧ 0 ≤ max 0 (q - c) ∧ max 0 (q - c) ≤ 1 := by
  have hb : (dbl.lt (.fin 0) (.fin c) && dbl.lt (.fin c) (.fin 1)) = true :=
    (dbl_between (.fin c)).2 ⟨c, rfl, hc0, hc1⟩
  have hdec : ¬ ("DecBl" = "IncBl") := by decide
  refine ⟨?_, ?_, ?_, ?_, ?_, ?_⟩
  · simp only [method_clight_changebl, hb, if_true, hcur, dbl.add]
    by_cases h1 : 1 < q + c
    · simp [dbl.lt, h1, min_eq_left (le_of_lt h1)]
    · simp [dbl.lt, h1, min_eq_right (not_lt.mp h1)]
  · simp only [method_clight_changebl, hb, if_true, hdec, if_false, hcur, dbl.sub, dbl.neg,
      dbl.add]
    by_cases h1 : q + -c < 0
    · have h2 : q + -c ≤ 0 := le_of_lt h1
      simp [dbl.lt, h1, sub_eq_add_neg, max_eq_left h2]
    · have h2 : 0 ≤ q + -c := not_lt.mp h1
      simp [dbl.lt, h1, sub_eq_add_neg, max_eq_right h2]
  · exact le_min (by norm_num) (by linarith)
  · exact min_le_left _ _
  · exact le_max_left _ _
  · exact max_le (by norm_num) (by linarith)

/-- Witness of C28: IncBl(3/4) at one half publishes the level 1. -/
theorem C28_changebl_clamped_witness :
    (method_clight_changebl bl_half "IncBl" (.ok (.fin (3 / 4)))).2.published =
      bl_half.published
        ++ [{ bl_half.bl_req with smooth := -1, new := .fin (min 1 (1 / 2 + 3 / 4)) }] :=
  (C28_changebl_clamped bl_half (1 / 2) (3 / 4) rfl (by norm_num) (by norm_num) (by norm_num)
    (by norm_num)).1

/-- C29 as stated fails: two clients call Inhibit and `random()` returns 11 both times; the
Locks of the two distinct keys carry the same cookie. -/
theorem C29_counterexample :
    map_lookup (run (init_state false) same_random).lock_map ":1.10" =
        some ⟨11, 1, "vlc", "video"⟩
    ∧ map_lookup (run (init_state false) same_random).lock_map ":1.11" =
        some ⟨11, 1, "mpv", "film"⟩
    ∧ ":1.10" ≠ ":1.11"
    ∧ ¬ cookies_distinct (run (init_state false) same_random).lock_map := by
  decide

/-- C29 amended: along every sequence of acquire, release and disappearance operations in
which each new Lock is given a cookie that no Lock of the table carries at that moment,
cookies stay distinct: Locks owned by distinct keys carry distinct cookies and at most one
Lock carries a given cookie. -/
theorem C29_cookies_distinct_when_fresh (s : iface_t) (ops : List op_t)
    (h0 : cookies_distinct s.lock_map) (hf : ops_fresh s ops) :
    cookies_distinct (run s ops).lock_map
    ∧ (∀ k1 k2 l1 l2, k1 ≠ k2 → map_lookup (run s ops).lock_map k1 = some l1 →
        map_lookup (run s ops).lock_map k2 = some l2 → l1.cookie ≠ l2.cookie)
    ∧ (∀ c : Int, ((run s ops).lock_map.filter (fun e => e.2.cookie == c)).length ≤ 1) := by
  have h := run_cookies s ops h0 hf
  refine ⟨h, ?_, ?_⟩
  · intro k1 k2 l1 l2 hne h1 h2
    exact cookies_distinct_lookup _ h k1 k2 l1 l2 hne h1 h2
  · intro c
    have hc := (List.nodup_iff_count_le_one.1 h) c
    rw [List.count, List.countP_map, List.countP_eq_length_filter] at hc
    exact hc

/-- Witness of C29 amended: with the random values 11 and 22 the two cookies differ. -/
theorem C29_cookies_distinct_when_fresh_witness :
    cookies_distinct (run (init_state false) other_random).lock_map :=
  (C29_cookies_distinct_when_fresh (init_state false) other_random (by decide)
    (by
      simp only [ops_fresh, other_random]
      decide)).1

end Clight
